import Mathlib

/-!
Verification of the bundle-assembly pipeline of the macOS video screensaver
generator (`main.go`).  The Go program is shallowly embedded: pure string
templates become Lean string functions, the filesystem becomes an association
list from paths to entries, and the two external build tools (`swiftc`,
`xcodebuild`) become oracles recorded in an invocation trace.
-/

set_option autoImplicit false

namespace SaverGen

/-! ## String helpers (models of the Go standard-library calls in `main.go`) -/

/-- Model of Go `unicode.IsSpace`: the white-space code points recognised by
`strings.TrimSpace`. -/
def goIsSpace (c : Char) : Bool :=
  ['\t', '\n', '\x0b', '\x0c', '\r', ' ', '\u0085', '\u00A0', '\u1680',
   '\u2000', '\u2001', '\u2002', '\u2003', '\u2004', '\u2005', '\u2006',
   '\u2007', '\u2008', '\u2009', '\u200A', '\u2028', '\u2029', '\u202F',
   '\u205F', '\u3000'].contains c

/-- Model of Go `strings.TrimSpace`: drop white-space from both ends. -/
def goTrimSpace (s : String) : String :=
  ⟨((s.data.dropWhile goIsSpace).reverse.dropWhile goIsSpace).reverse⟩

/-- `sanitizeName` from `main.go`: trim, and fall back to `"Screensaver"` when
the trimmed name is empty. -/
def sanitizeName (s : String) : String :=
  let t := goTrimSpace s
  if t = "" then "Screensaver" else t

/-- ASCII fragment of Go `strings.ToLower` (the identifiers in the claims are
ASCII; Go additionally lower-cases non-ASCII letters). -/
def goToLowerChar (c : Char) : Char :=
  if 'A' ≤ c ∧ c ≤ 'Z' then Char.ofNat (c.toNat + 32) else c

/-- Character-wise lower-casing, model of `strings.ToLower`. -/
def goToLower (s : String) : String := ⟨s.data.map goToLowerChar⟩

/-- Model of `strings.ReplaceAll(name, " ", "")`: a single-character pattern
with empty replacement removes every occurrence of that character. -/
def goRemoveSpaces (s : String) : String := ⟨s.data.filter (fun c => c ≠ ' ')⟩

/-- Auxiliary recursion for `goReplaceAll`, on character lists (accumulator
holds the output so far, reversed). -/
def replaceAllAux (old new : List Char) (acc : List Char) : List Char → List Char
  | [] => acc.reverse
  | c :: cs =>
    if h : old ≠ [] ∧ old.isPrefixOf (c :: cs) then
      replaceAllAux old new (new.reverse ++ acc) ((c :: cs).drop old.length)
    else
      replaceAllAux old new (c :: acc) cs
termination_by l => l.length
decreasing_by
  · simp only [List.length_drop, List.length_cons]
    have hlen : 0 < old.length := List.length_pos.mpr h.1
    omega
  · simp only [List.length_cons]
    omega

/-- Model of Go `strings.ReplaceAll` for a non-empty pattern: replace
non-overlapping occurrences left to right.  (Go inserts `new` at every
position for an empty pattern; the program only uses non-empty patterns, and
for an empty pattern this model returns `s` unchanged.) -/
def goReplaceAll (s old new : String) : String :=
  ⟨replaceAllAux old.data new.data [] s.data⟩

/-! ## Template renderers (the literal template text of `main.go`) -/

def swiftBody : String := "import ScreenSaver\nimport AVFoundation\nimport Cocoa\n\n@objc(VideoSaverView)\npublic class VideoSaverView: ScreenSaverView \x7b\n    var player: AVPlayer?\n    var playerLayer: AVPlayerLayer?\n    \n    public override init?(frame: NSRect, isPreview: Bool) \x7b\n        super.init(frame: frame, isPreview: isPreview)\n        setupPlayer()\n    \x7d\n    \n    required init?(coder: NSCoder) \x7b\n        super.init(coder: coder)\n        setupPlayer()\n    \x7d\n    \n    func setupPlayer() \x7b\n        self.wantsLayer = true\n        self.layer = CALayer()\n        self.layer?.backgroundColor = NSColor.black.cgColor\n        \n        // Try to find the video file\n        guard let url = Bundle(for: type(of: self)).url(forResource: \"payload\", withExtension: \"mp4\") else \x7b \n            return \n        \x7d\n        \n        let item = AVPlayerItem(url: url)\n        self.player = AVPlayer(playerItem: item)\n        self.player?.isMuted = true\n        \n        self.playerLayer = AVPlayerLayer(player: self.player)\n        self.playerLayer?.videoGravity = .resizeAspectFill\n        self.playerLayer?.frame = self.bounds\n        \n        if let playerLayer = self.playerLayer \x7b\n            self.layer?.addSublayer(playerLayer)\n        \x7d\n        \n        NotificationCenter.default.addObserver(\n            self, \n            selector: #selector(loopVideo(_:)), \n            name: .AVPlayerItemDidPlayToEndTime, \n            object: item\n        )\n        \n        // Start playback after a brief delay\n        DispatchQueue.main.asyncAfter(deadline: .now() + 0.1) \x7b\n            self.player?.play()\n        \x7d\n    \x7d\n    \n    @objc func loopVideo(_ note: Notification) \x7b\n        self.player?.seek(to: .zero)\n        self.player?.play()\n    \x7d\n    \n    public override func animateOneFrame() \x7b\n        super.animateOneFrame()\n        // Update layer frame if needed\n        if let playerLayer = self.playerLayer \x7b\n            playerLayer.frame = self.bounds\n        \x7d\n    \x7d\n    \n    public override var hasConfigureSheet: Bool \x7b false \x7d\n    public override var configureSheet: NSWindow? \x7b nil \x7d\n\x7d\n"

def plistA : String := "<?xml version=\"1.0\" encoding=\"UTF-8\"?>\n<!DOCTYPE plist PUBLIC \"-//Apple//DTD PLIST 1.0//EN\" \"http://www.apple.com/DTDs/PropertyList-1.0.dtd\">\n<plist version=\"1.0\">\n<dict>\n    <key>CFBundleDevelopmentRegion</key>\n    <string>en</string>\n    <key>CFBundleExecutable</key>\n    <string>VideoSaver</string>\n    <key>CFBundleIdentifier</key>\n    <string>com.example."

def plistB : String := "</string>\n    <key>CFBundleInfoDictionaryVersion</key>\n    <string>6.0</string>\n    <key>CFBundleName</key>\n    <string>"

def plistC : String := "</string>\n    <key>CFBundlePackageType</key>\n    <string>BNDL</string>\n    <key>CFBundleShortVersionString</key>\n    <string>1.0</string>\n    <key>CFBundleVersion</key>\n    <string>1</string>\n    <key>NSPrincipalClass</key>\n    <string>VideoSaverView</string>\n</dict>\n</plist>\n"

def pbx1 : String := "// !$*UTF8*$!\n\x7b\n  archiveVersion = 1;\n  classes = \x7b\x7d;\n  objectVersion = 56;\n  objects = \x7b\n\n/* Begin PBXFileReference section */\n    000000000000000000000001 /* VideoSaver.swift */ = \x7bisa = PBXFileReference; lastKnownFileType = sourcecode.swift; path = VideoSaver.swift; sourceTree = \"<group>\"; \x7d;\n    000000000000000000000002 /* Info.plist */ = \x7bisa = PBXFileReference; lastKnownFileType = text.plist.xml; path = Info.plist; sourceTree = \"<group>\"; \x7d;\n    000000000000000000000003 /* payload.mp4 */ = \x7bisa = PBXFileReference; lastKnownFileType = file; path = payload.mp4; sourceTree = \"<group>\"; \x7d;\n    000000000000000000000010 /* "

def pbx2 : String := ".saver */ = \x7bisa = PBXFileReference; explicitFileType = wrapper.cfbundle; includeInIndex = 0; path = \""

def pbx3 : String := ".saver\"; sourceTree = BUILT_PRODUCTS_DIR; \x7d;\n/* End PBXFileReference section */\n\n/* Begin PBXGroup section */\n    000000000000000000000100 = \x7bisa = PBXGroup; children = (\n            000000000000000000000200 /* VideoSaver */,\n            000000000000000000000300 /* Products */,\n        ); sourceTree = \"<group>\"; \x7d;\n    000000000000000000000200 /* VideoSaver */ = \x7bisa = PBXGroup; children = (\n            000000000000000000000001 /* VideoSaver.swift */,\n            000000000000000000000002 /* Info.plist */,\n            000000000000000000000003 /* payload.mp4 */,\n        ); path = VideoSaver; sourceTree = \"<group>\"; \x7d;\n    000000000000000000000300 /* Products */ = \x7bisa = PBXGroup; children = (\n            000000000000000000000010 /* "

def pbx4 : String := ".saver */,\n        ); name = Products; sourceTree = \"<group>\"; \x7d;\n/* End PBXGroup section */\n\n/* Begin PBXNativeTarget section */\n    000000000000000000000400 /* VideoSaver */ = \x7bisa = PBXNativeTarget; buildConfigurationList = 000000000000000000000800 /* Build configuration list for PBXNativeTarget \"VideoSaver\" */; buildPhases = (\n            000000000000000000000500 /* Sources */,\n            000000000000000000000600 /* Resources */,\n        ); buildRules = ( ); dependencies = ( ); name = VideoSaver; productName = VideoSaver; productReference = 000000000000000000000010 /* "

def pbx5 : String := ".saver */; productType = \"com.apple.product-type.bundle\"; \x7d;\n/* End PBXNativeTarget section */\n\n/* Begin PBXProject section */\n    000000000000000000000700 /* Project object */ = \x7bisa = PBXProject; buildConfigurationList = 000000000000000000000900 /* Build configuration list for PBXProject \"VideoSaver\" */; compatibilityVersion = \"Xcode 14.0\"; developmentRegion = en; hasScannedForEncodings = 0; knownRegions = (en); mainGroup = 000000000000000000000100; productRefGroup = 000000000000000000000300 /* Products */; projectDirPath = \"\"; projectRoot = \"\"; targets = (000000000000000000000400 /* VideoSaver */); \x7d;\n/* End PBXProject section */\n\n/* Begin PBXResourcesBuildPhase section */\n    000000000000000000000600 /* Resources */ = \x7bisa = PBXResourcesBuildPhase; files = (\n            000000000000000000000604 /* payload.mp4 in Resources */,\n            000000000000000000000603 /* Info.plist in Resources */,\n        ); \x7d;\n/* End PBXResourcesBuildPhase section */\n\n/* Begin PBXSourcesBuildPhase section */\n    000000000000000000000500 /* Sources */ = \x7bisa = PBXSourcesBuildPhase; files = (\n            000000000000000000000501 /* VideoSaver.swift in Sources */,\n        ); \x7d;\n/* End PBXSourcesBuildPhase section */\n\n/* Begin PBXBuildFile section */\n    000000000000000000000501 /* VideoSaver.swift in Sources */ = \x7bisa = PBXBuildFile; fileRef = 000000000000000000000001 /* VideoSaver.swift */; \x7d;\n    000000000000000000000603 /* Info.plist in Resources */ = \x7bisa = PBXBuildFile; fileRef = 000000000000000000000002 /* Info.plist */; \x7d;\n    000000000000000000000604 /* payload.mp4 in Resources */ = \x7bisa = PBXBuildFile; fileRef = 000000000000000000000003 /* payload.mp4 */; \x7d;\n/* End PBXBuildFile section */\n\n/* Begin XCBuildConfiguration section */\n    000000000000000000000901 /* Debug */ = \x7bisa = XCBuildConfiguration; buildSettings = \x7b\n        PRODUCT_NAME = \""

def pbx6 : String := "\";\n        INFOPLIST_FILE = VideoSaver/Info.plist;\n        WRAPPER_EXTENSION = saver;\n        CODE_SIGNING_ALLOWED = NO;\n        CODE_SIGNING_REQUIRED = NO;\n        MACOSX_DEPLOYMENT_TARGET = 11.0;\n        SWIFT_VERSION = 5.0;\n    \x7d; name = Debug; \x7d;\n    000000000000000000000902 /* Release */ = \x7bisa = XCBuildConfiguration; buildSettings = \x7b\n        PRODUCT_NAME = \""

def pbx7 : String := "\";\n        INFOPLIST_FILE = VideoSaver/Info.plist;\n        WRAPPER_EXTENSION = saver;\n        CODE_SIGNING_ALLOWED = NO;\n        CODE_SIGNING_REQUIRED = NO;\n        MACOSX_DEPLOYMENT_TARGET = 11.0;\n        SWIFT_VERSION = 5.0;\n    \x7d; name = Release; \x7d;\n/* End XCBuildConfiguration section */\n\n/* Begin XCConfigurationList section */\n    000000000000000000000800 /* Build configuration list for PBXNativeTarget \"VideoSaver\" */ = \x7bisa = XCConfigurationList; buildConfigurations = (\n            000000000000000000000901 /* Debug */,\n            000000000000000000000902 /* Release */,\n        ); defaultConfigurationIsVisible = 0; defaultConfigurationName = Release; \x7d;\n    000000000000000000000900 /* Build configuration list for PBXProject \"VideoSaver\" */ = \x7bisa = XCConfigurationList; buildConfigurations = (\n            000000000000000000000901 /* Debug */,\n            000000000000000000000902 /* Release */,\n        ); defaultConfigurationIsVisible = 0; defaultConfigurationName = Release; \x7d;\n/* End XCConfigurationList section */\n\n  \x7d;\n  rootObject = 000000000000000000000700 /* Project object */;\n\x7d\n"

/-- `swiftSaverClass` from `main.go`: the playback-component source template.
The name parameter is accepted but never used by the Go function. -/
def swiftSaverClass (_ : String) : String := swiftBody

/-- `infoPlist` from `main.go`: the manifest template with the derived bundle
identifier and the display name spliced in. -/
def infoPlist (name : String) : String :=
  plistA ++ goToLower (goRemoveSpaces name) ++ plistB ++ name ++ plistC

/-- `xcodeprojPbxproj` from `main.go`.  The Go source interleaves raw-string
chunks with `name` (the backquotes delimit the chunks), and finally applies
`strings.ReplaceAll` with the pattern `"\x60" + name + "\x60"`. -/
def xcodeprojPbxproj (name : String) : String :=
  goReplaceAll
    (pbx1 ++ name ++ pbx2 ++ name ++ pbx3 ++ name ++ pbx4 ++ name ++ pbx5 ++
      name ++ pbx6 ++ name ++ pbx7)
    ("\x60" ++ name ++ "\x60") name

/-! ## Filesystem model

A filesystem is an association list from paths (component lists) to entries.
`writeSet` conses; `statList` returns the first (most recent) match. -/

abbrev Bytes := List Nat

inductive Entry
  | dir
  | file (data : Bytes)
deriving DecidableEq, Repr

abbrev Path := List String

def statList : List (Path × Entry) → Path → Option Entry
  | [], _ => none
  | pe :: rest, p => if pe.1 = p then some pe.2 else statList rest p

structure FS where
  entries : List (Path × Entry)
deriving DecidableEq, Repr

def FS.stat (fs : FS) (p : Path) : Option Entry := statList fs.entries p

def FS.writeSet (fs : FS) (p : Path) (e : Entry) : FS := ⟨(p, e) :: fs.entries⟩

def isFileO : Option Entry → Bool
  | some (Entry.file _) => true
  | _ => false

/-- File contents written from a rendered template string. -/
def strBytes (s : String) : Bytes := s.data.map Char.toNat

/-- Error taxonomy of the pipeline (each constructor models one of the Go
error returns). -/
inductive Err
  | noToolchain (hint : String)
  | workspaceCreationFailed
  | mkdirFailed (p : Path)
  | copyOpenFailed (src : Path)
  | writeFailed (p : Path)
  | compileFailed
  | buildFailed
  | outputMissing (p : Path)
deriving DecidableEq, Repr

/-- One step of `os.MkdirAll`: create a single directory if absent; an
existing directory is kept, an existing file is an error. -/
def FS.mkdir1 (fs : FS) (q : Path) : Except Err FS :=
  match fs.stat q with
  | some Entry.dir => Except.ok fs
  | some (Entry.file _) => Except.error (Err.mkdirFailed q)
  | none => Except.ok (fs.writeSet q Entry.dir)

def FS.mkdirList (fs : FS) : List Path → Except Err FS
  | [] => Except.ok fs
  | q :: qs =>
    match fs.mkdir1 q with
    | Except.error e => Except.error e
    | Except.ok fs1 => fs1.mkdirList qs

/-- Model of `os.MkdirAll p`: create every missing ancestor of `p`, parents
first. -/
def FS.mkdirAll (fs : FS) (p : Path) : Except Err FS := fs.mkdirList p.inits

/-- The scaffold loop of `buildMacSaverSwift` (`for _, dir := range ...`).
On error the filesystem from before the failing `MkdirAll` is reported. -/
def mkdirSeq (fs : FS) : List Path → FS × Option Err
  | [] => (fs, none)
  | p :: ps =>
    match fs.mkdirAll p with
    | Except.error e => (fs, some e)
    | Except.ok fs1 => mkdirSeq fs1 ps

/-- `copyFile` from `main.go`: open `src` (fails unless it is an existing
regular file), create the parent directories of `dst`, create/truncate `dst`
(fails if `dst` is a directory) and copy the bytes. -/
def FS.copyFile (fs : FS) (src dst : Path) : Except Err FS :=
  match fs.stat src with
  | some (Entry.file b) =>
    match fs.mkdirAll dst.dropLast with
    | Except.error e => Except.error e
    | Except.ok fs1 =>
      match fs1.stat dst with
      | some Entry.dir => Except.error (Err.writeFailed dst)
      | _ => Except.ok (fs1.writeSet dst (Entry.file b))
  | _ => Except.error (Err.copyOpenFailed src)

/-- Model of `os.WriteFile`: the parent must be an existing directory and the
target must not be a directory. -/
def FS.writeFile (fs : FS) (p : Path) (b : Bytes) : Except Err FS :=
  match fs.stat p.dropLast with
  | some Entry.dir =>
    match fs.stat p with
    | some Entry.dir => Except.error (Err.writeFailed p)
    | _ => Except.ok (fs.writeSet p (Entry.file b))
  | _ => Except.error (Err.writeFailed p)

/-- `os.MkdirAll(filepath.Dir(p))` followed by `os.WriteFile(p, ...)`, the
idiom used by `buildMacSaverXcode` for its template files. -/
def writeUnder (fs : FS) (p : Path) (b : Bytes) : Except Err FS :=
  match fs.mkdirAll p.dropLast with
  | Except.error e => Except.error e
  | Except.ok fs1 => fs1.writeFile p b

def relUnder (src : Path) (pe : Path × Entry) : Option (Path × Entry) :=
  if src.isPrefixOf pe.1 then some (pe.1.drop src.length, pe.2) else none

/-- The entries of the subtree rooted at `src`, with paths relative to `src`
(the enumeration `filepath.WalkDir` performs). -/
def FS.entriesUnder (fs : FS) (src : Path) : List (Path × Entry) :=
  fs.entries.filterMap (relUnder src)

/-- The body of `copyDirRecursive`: recreate each enumerated directory and
copy each enumerated file, aborting on the first error. -/
def FS.copyList (fs : FS) (src dst : Path) : List (Path × Entry) → Except Err FS
  | [] => Except.ok fs
  | (rel, Entry.dir) :: rest =>
    match fs.mkdirAll (dst ++ rel) with
    | Except.error e => Except.error e
    | Except.ok fs1 => fs1.copyList src dst rest
  | (rel, Entry.file _) :: rest =>
    match fs.copyFile (src ++ rel) (dst ++ rel) with
    | Except.error e => Except.error e
    | Except.ok fs1 => fs1.copyList src dst rest

/-- `copyDir` from `main.go`: stat `src`; a file is copied directly and a
directory is walked top-down (oldest entries first, i.e. parents before the
files later created inside them). -/
def FS.copyTree (fs : FS) (src dst : Path) : Except Err FS :=
  match fs.stat src with
  | none => Except.error (Err.copyOpenFailed src)
  | some (Entry.file _) => fs.copyFile src dst
  | some Entry.dir => fs.copyList src dst (fs.entriesUnder src).reverse

/-! ## Environment, trace and pipeline -/

/-- Outcome of one `swiftc` invocation: failure, or success optionally
producing the `-o` output file (a compiler that reports success without
creating its output is representable). -/
inductive CompilerRes
  | fail
  | ok (output : Option Bytes)
deriving DecidableEq, Repr

/-- Outcome of one `xcodebuild` invocation: failure, or success optionally
producing a built artifact tree under `build/Release`. -/
inductive XcodeRes
  | fail
  | ok (artifact : Option (List (Path × Entry)))
deriving DecidableEq, Repr

/-- Ambient environment: which tools `exec.LookPath` finds, the fresh
temporary directory `os.MkdirTemp` yields (`none` = creation failure), the
behaviour of each external tool, and whether the final `os.Chmod` succeeds. -/
structure Env where
  swiftcAvailable : Bool
  xcodebuildAvailable : Bool
  tempDir : Option Path
  swiftcRes : CompilerRes
  xcodeRes : XcodeRes
  chmodOk : Bool
deriving DecidableEq, Repr

structure Invocation where
  dir : Path
  tool : String
  args : List String
deriving DecidableEq, Repr

structure St where
  fs : FS
  trace : List Invocation
  warnings : List String
deriving DecidableEq, Repr

def chmodWarnMsg : String := "Could not set executable permissions"

def noToolchainHint : String :=
  "Neither swiftc nor xcodebuild found. Install Xcode command line tools: xcode-select --install"

def pathToString (p : Path) : String := String.intercalate "/" p

/-- The hard-coded `swiftc` argument list of `buildMacSaverSwift`. -/
def swiftcArgs (execPathStr : String) : List String :=
  ["-framework", "ScreenSaver", "-framework", "AVFoundation", "-framework", "AVKit",
   "-framework", "Cocoa", "-emit-library", "-module-name", "VideoSaver", "-o",
   execPathStr, "VideoSaver.swift"]

/-- The hard-coded `xcodebuild` argument list of `buildMacSaverXcode`. -/
def xcodebuildArgs : List String :=
  ["-project", "VideoSaver.xcodeproj", "-scheme", "VideoSaver", "-configuration",
   "Release", "build"]

/-- Stage A of `buildMacSaverSwift` (after `MkdirTemp`): scaffold the bundle
skeleton, stage the media asset, emit the manifest and the component source.
Returns the filesystem reached together with the first error, if any. -/
def swiftStageA (inPath tempDir : Path) (projName : String) (fs : FS) : FS × Option Err :=
  let bundlePath := tempDir ++ [projName ++ ".saver"]
  let contentsPath := bundlePath ++ ["Contents"]
  let macosPath := contentsPath ++ ["MacOS"]
  let resourcesPath := contentsPath ++ ["Resources"]
  match mkdirSeq fs [bundlePath, contentsPath, macosPath, resourcesPath] with
  | (fsE, some e) => (fsE, some e)
  | (fs1, none) =>
    match fs1.copyFile inPath (resourcesPath ++ ["payload.mp4"]) with
    | Except.error e => (fs1, some e)
    | Except.ok fs2 =>
      match fs2.writeFile (contentsPath ++ ["Info.plist"]) (strBytes (infoPlist projName)) with
      | Except.error e => (fs2, some e)
      | Except.ok fs3 =>
        match fs3.writeFile (tempDir ++ ["VideoSaver.swift"]) (strBytes (swiftSaverClass projName)) with
        | Except.error e => (fs3, some e)
        | Except.ok fs4 => (fs4, none)

/-- `buildMacSaverSwift` from `main.go` (the direct-compiler strategy). -/
def buildMacSaverSwift (env : Env) (inPath outPath : Path) (name : String) (st : St) :
    St × Except Err Unit :=
  match env.tempDir with
  | none => (st, Except.error Err.workspaceCreationFailed)
  | some tempDir =>
    let projName := sanitizeName name
    let bundlePath := tempDir ++ [projName ++ ".saver"]
    let execPath := bundlePath ++ ["Contents", "MacOS", "VideoSaver"]
    match swiftStageA inPath tempDir projName (st.fs.writeSet tempDir Entry.dir) with
    | (fsE, some e) => ({ st with fs := fsE }, Except.error e)
    | (fs4, none) =>
      let tr := st.trace ++ [⟨tempDir, "swiftc", swiftcArgs (pathToString execPath)⟩]
      match env.swiftcRes with
      | CompilerRes.fail => ({ st with fs := fs4, trace := tr }, Except.error Err.compileFailed)
      | CompilerRes.ok output =>
        let fs5 := match output with
          | some b => fs4.writeSet execPath (Entry.file b)
          | none => fs4
        match fs5.stat execPath with
        | none => ({ st with fs := fs5, trace := tr }, Except.error (Err.outputMissing execPath))
        | some _ =>
          match fs5.copyTree bundlePath outPath with
          | Except.error e => ({ st with fs := fs5, trace := tr }, Except.error e)
          | Except.ok fs6 =>
            if env.chmodOk then ({ st with fs := fs6, trace := tr }, Except.ok ())
            else ({ st with fs := fs6, trace := tr, warnings := st.warnings ++ [chmodWarnMsg] }, Except.ok ())

/-- Stage A of `buildMacSaverXcode`: emit the three template files (Go
iterates a map here in unspecified order; the three writes are to independent
paths, so a fixed order is observationally equivalent) and stage the media. -/
def xcodeStageA (inPath tempDir : Path) (projName : String) (fs : FS) : FS × Option Err :=
  match writeUnder fs (tempDir ++ ["VideoSaver.xcodeproj", "project.pbxproj"])
      (strBytes (xcodeprojPbxproj projName)) with
  | Except.error e => (fs, some e)
  | Except.ok fs1 =>
    match writeUnder fs1 (tempDir ++ ["VideoSaver", "VideoSaver.swift"])
        (strBytes (swiftSaverClass projName)) with
    | Except.error e => (fs1, some e)
    | Except.ok fs2 =>
      match writeUnder fs2 (tempDir ++ ["VideoSaver", "Info.plist"])
          (strBytes (infoPlist projName)) with
      | Except.error e => (fs2, some e)
      | Except.ok fs3 =>
        match fs3.copyFile inPath (tempDir ++ ["VideoSaver", "payload.mp4"]) with
        | Except.error e => (fs3, some e)
        | Except.ok fs4 => (fs4, none)

/-- `buildMacSaverXcode` from `main.go` (the project-based strategy).  The
deferred background deletion of the workspace (`time.Sleep` + `RemoveAll` in
a goroutine) touches only the scratch workspace and is not modeled. -/
def buildMacSaverXcode (env : Env) (inPath outPath : Path) (name : String) (st : St) :
    St × Except Err Unit :=
  match env.tempDir with
  | none => (st, Except.error Err.workspaceCreationFailed)
  | some tempDir =>
    let projName := sanitizeName name
    match xcodeStageA inPath tempDir projName (st.fs.writeSet tempDir Entry.dir) with
    | (fsE, some e) => ({ st with fs := fsE }, Except.error e)
    | (fs4, none) =>
      let tr := st.trace ++ [⟨tempDir, "xcodebuild", xcodebuildArgs⟩]
      match env.xcodeRes with
      | XcodeRes.fail => ({ st with fs := fs4, trace := tr }, Except.error Err.buildFailed)
      | XcodeRes.ok artifact =>
        let built := tempDir ++ ["build", "Release", projName ++ ".saver"]
        let fs5 := match artifact with
          | some tree => tree.foldl (fun (acc : FS) (pe : Path × Entry) => acc.writeSet (built ++ pe.1) pe.2) fs4
          | none => fs4
        match fs5.stat built with
        | none => ({ st with fs := fs5, trace := tr }, Except.error (Err.outputMissing built))
        | some _ =>
          match fs5.copyTree built outPath with
          | Except.error e => ({ st with fs := fs5, trace := tr }, Except.error e)
          | Except.ok fs6 => ({ st with fs := fs6, trace := tr }, Except.ok ())

/-- `buildMacSaver` from `main.go`: the build-strategy selector. -/
def buildMacSaver (env : Env) (inPath outPath : Path) (name : String) (st : St) :
    St × Except Err Unit :=
  if env.swiftcAvailable then buildMacSaverSwift env inPath outPath name st
  else if env.xcodebuildAvailable then buildMacSaverXcode env inPath outPath name st
  else (st, Except.error (Err.noToolchain noToolchainHint))

/-! ## Specification-side helpers used by the theorems -/

/-- The exact bundle layout of spec §6, as a function from the path relative
to the output bundle root to the expected entry. -/
def bundleStat (plB bin inB : Bytes) (r : Path) : Option Entry :=
  if r = [] then some Entry.dir
  else if r = ["Contents"] then some Entry.dir
  else if r = ["Contents", "Info.plist"] then some (Entry.file plB)
  else if r = ["Contents", "MacOS"] then some Entry.dir
  else if r = ["Contents", "MacOS", "VideoSaver"] then some (Entry.file bin)
  else if r = ["Contents", "Resources"] then some Entry.dir
  else if r = ["Contents", "Resources", "payload.mp4"] then some (Entry.file inB)
  else none

/-- No entry of `fs` lies at or below `p` (decidable freshness hypothesis). -/
def freshUnder (fs : FS) (p : Path) : Bool :=
  fs.entries.all (fun pe => !(p.isPrefixOf pe.1))

/-- No ancestor of `p` (including `p`) is a regular file in `fs`. -/
def noFileAlong (fs : FS) (p : Path) : Bool :=
  p.inits.all (fun q => !(isFileO (fs.stat q)))

/-- The exact list of entries staged by a successful stage A of the
direct-compiler pipeline (newest first), used to state its specification. -/
def stageAEntries (t : Path) (pn : String) (inB : Bytes) : List (Path × Entry) :=
  [(t ++ ["VideoSaver.swift"], Entry.file (strBytes (swiftSaverClass pn))),
   (t ++ [pn ++ ".saver", "Contents", "Info.plist"], Entry.file (strBytes (infoPlist pn))),
   (t ++ [pn ++ ".saver", "Contents", "Resources", "payload.mp4"], Entry.file inB),
   (t ++ [pn ++ ".saver", "Contents", "Resources"], Entry.dir),
   (t ++ [pn ++ ".saver", "Contents", "MacOS"], Entry.dir),
   (t ++ [pn ++ ".saver", "Contents"], Entry.dir),
   (t ++ [pn ++ ".saver"], Entry.dir)]

/-! ## Filesystem lemmas -/

theorem fs_eta (fs : FS) : (⟨fs.entries⟩ : FS) = fs := rfl

theorem stat_writeSet (fs : FS) (p : Path) (e : Entry) (q : Path) :
    (fs.writeSet p e).stat q = if p = q then some e else fs.stat q := rfl

theorem statList_cons (pe : Path × Entry) (rest : List (Path × Entry)) (q : Path) :
    statList (pe :: rest) q = if pe.1 = q then some pe.2 else statList rest q := rfl

theorem statList_none (es : List (Path × Entry)) (q : Path) (h : ∀ pe ∈ es, pe.1 ≠ q) :
    statList es q = none := by
  induction es with
  | nil => rfl
  | cons pe rest ih =>
    rw [statList_cons, if_neg (h pe (by simp))]
    exact ih (fun pe2 h2 => h pe2 (by simp [h2]))

theorem statList_dirs (ds : List Path) (es : List (Path × Entry)) (q : Path) :
    statList (ds.map (fun d => (d, Entry.dir)) ++ es) q =
      if q ∈ ds then some Entry.dir else statList es q := by
  induction ds with
  | nil => simp
  | cons d ds ih =>
    rw [List.map_cons, List.cons_append, statList_cons]
    by_cases hq : d = q
    · subst hq
      simp
    · rw [if_neg hq, ih]
      by_cases hm : q ∈ ds
      · simp [hm]
      · have : ¬ q ∈ d :: ds := by
          simp [List.mem_cons, hm]
          intro hc
          exact hq hc.symm
        simp [hm, this]

theorem stat_none_of_fresh (fs : FS) (p : Path) (h : freshUnder fs p = true) (r : Path) :
    fs.stat (p ++ r) = none := by
  apply statList_none
  intro pe hpe heq
  have hall := List.all_eq_true.mp h pe hpe
  simp only [heq] at hall
  rw [List.isPrefixOf_iff_prefix.mpr (List.prefix_append p r)] at hall
  simp at hall

theorem noFileAlong_spec (fs : FS) (p : Path) (h : noFileAlong fs p = true) {q : Path}
    (hq : q <+: p) : isFileO (fs.stat q) = false := by
  have := List.all_eq_true.mp h q ((List.mem_inits q p).mpr hq)
  simpa using this

theorem inits_nodup {α : Type _} (l : List α) : l.inits.Nodup := by
  induction l with
  | nil => simp
  | cons a l ih =>
    rw [List.inits_cons]
    refine List.Nodup.cons ?_ (ih.map ?_)
    · intro hmem
      simp at hmem
    · intro x y hxy
      simpa using hxy

theorem mkdirList_spec (l : List Path) (fs : FS) (hnd : l.Nodup)
    (h : ∀ q ∈ l, isFileO (fs.stat q) = false) :
    fs.mkdirList l =
      Except.ok ⟨((l.filter (fun q => fs.stat q = none)).reverse.map
        (fun q => (q, Entry.dir))) ++ fs.entries⟩ := by
  induction l generalizing fs with
  | nil => simp [FS.mkdirList]
  | cons q qs ih =>
    have hq := h q (by simp)
    have hnd2 := (List.nodup_cons.mp hnd).2
    have hqnot := (List.nodup_cons.mp hnd).1
    cases hstat : fs.stat q with
    | none =>
      have h1 : fs.mkdir1 q = Except.ok (fs.writeSet q Entry.dir) := by
        rw [FS.mkdir1, hstat]
      have hstep := ih (fs.writeSet q Entry.dir) hnd2 (fun r hr => by
        rw [stat_writeSet, if_neg (fun heq => hqnot (by rw [heq]; exact hr))]
        exact h r (by simp [hr]))
      simp only [FS.mkdirList, h1, hstep]
      have hfil : List.filter (fun r => decide ((fs.writeSet q Entry.dir).stat r = none)) qs =
          List.filter (fun r => decide (fs.stat r = none)) qs := by
        apply List.filter_congr
        intro r hr
        rw [stat_writeSet, if_neg (fun heq => hqnot (by rw [heq]; exact hr))]
      rw [hfil]
      have hsel : List.filter (fun r => decide (fs.stat r = none)) (q :: qs) =
          q :: List.filter (fun r => decide (fs.stat r = none)) qs := by
        rw [List.filter_cons]
        simp [hstat]
      rw [hsel, List.reverse_cons, List.map_append]
      simp [FS.writeSet, List.append_assoc]
    | some e =>
      cases e with
      | dir =>
        have h1 : fs.mkdir1 q = Except.ok fs := by
          rw [FS.mkdir1, hstat]
        have hstep := ih fs hnd2 (fun r hr => h r (by simp [hr]))
        simp only [FS.mkdirList, h1, hstep]
        have hsel : List.filter (fun r => decide (fs.stat r = none)) (q :: qs) =
            List.filter (fun r => decide (fs.stat r = none)) qs := by
          rw [List.filter_cons]
          simp [hstat]
        rw [hsel]
      | file b =>
        rw [hstat] at hq
        simp [isFileO] at hq

theorem mkdirAll_spec (fs : FS) (p : Path)
    (h : ∀ q, q <+: p → isFileO (fs.stat q) = false) :
    fs.mkdirAll p =
      Except.ok ⟨((p.inits.filter (fun q => fs.stat q = none)).reverse.map
        (fun q => (q, Entry.dir))) ++ fs.entries⟩ :=
  mkdirList_spec p.inits fs (inits_nodup p)
    (fun q hq => h q ((List.mem_inits q p).mp hq))

theorem stat_dirsFrom (fs : FS) (p : Path) (q : Path) :
    (FS.mk (((p.inits.filter (fun r => fs.stat r = none)).reverse.map
        (fun r => (r, Entry.dir))) ++ fs.entries)).stat q =
      if q <+: p ∧ fs.stat q = none then some Entry.dir else fs.stat q := by
  show statList _ _ = _
  rw [statList_dirs]
  by_cases hc : q <+: p ∧ fs.stat q = none
  · rw [if_pos hc, if_pos]
    rw [List.mem_reverse, List.mem_filter]
    exact ⟨(List.mem_inits q p).mpr hc.1, by simp [hc.2]⟩
  · rw [if_neg hc, if_neg]
    · rfl
    · intro hmem
      rw [List.mem_reverse, List.mem_filter] at hmem
      exact hc ⟨(List.mem_inits q p).mp hmem.1, by simpa using hmem.2⟩

theorem mkdirAll_noop (fs : FS) (p : Path)
    (h : ∀ q, q <+: p → fs.stat q = some Entry.dir) :
    fs.mkdirAll p = Except.ok fs := by
  rw [mkdirAll_spec fs p (fun q hq => by rw [h q hq]; rfl)]
  have hfil : p.inits.filter (fun q => fs.stat q = none) = [] := by
    rw [List.filter_eq_nil_iff]
    intro q hq
    simp [h q ((List.mem_inits q p).mp hq)]
  rw [hfil]
  simp

theorem writeFile_spec (fs : FS) (p : Path) (b : Bytes)
    (hpar : fs.stat p.dropLast = some Entry.dir) (hp : fs.stat p ≠ some Entry.dir) :
    fs.writeFile p b = Except.ok ⟨(p, Entry.file b) :: fs.entries⟩ := by
  cases hstat : fs.stat p with
  | none =>
    simp only [FS.writeFile, hpar, hstat]
    rfl
  | some e =>
    cases e with
    | dir => exact absurd hstat hp
    | file c =>
      simp only [FS.writeFile, hpar, hstat]
      rfl

theorem copyFile_spec (fs : FS) (src dst : Path) (b : Bytes)
    (hne : dst ≠ [])
    (hsrc : fs.stat src = some (Entry.file b))
    (hpar : ∀ q, q <+: dst.dropLast → isFileO (fs.stat q) = false)
    (hdst : fs.stat dst ≠ some Entry.dir) :
    fs.copyFile src dst =
      Except.ok ⟨(dst, Entry.file b) ::
        ((dst.dropLast.inits.filter (fun q => fs.stat q = none)).reverse.map
          (fun q => (q, Entry.dir))) ++ fs.entries⟩ := by
  have hmk := mkdirAll_spec fs dst.dropLast hpar
  have hd : (FS.mk (((dst.dropLast.inits.filter (fun r => fs.stat r = none)).reverse.map
      (fun r => (r, Entry.dir))) ++ fs.entries)).stat dst = fs.stat dst := by
    rw [stat_dirsFrom]
    rw [if_neg]
    intro hc
    have hlen := hc.1.length_le
    have : dst.dropLast.length < dst.length := by
      rw [List.length_dropLast]
      cases dst with
      | nil => exact absurd rfl hne
      | cons a l => simp
    omega
  cases hstat : fs.stat dst with
  | none =>
    rw [hstat] at hd
    simp only [FS.copyFile, hsrc, hmk, hd]
    rfl
  | some e =>
    cases e with
    | dir => exact absurd hstat hdst
    | file c =>
      rw [hstat] at hd
      simp only [FS.copyFile, hsrc, hmk, hd]
      rfl

theorem copyFile_existing (fs : FS) (src dst : Path) (b : Bytes)
    (hne : dst ≠ [])
    (hsrc : fs.stat src = some (Entry.file b))
    (hall : ∀ q, q <+: dst.dropLast → fs.stat q = some Entry.dir)
    (hdst : fs.stat dst ≠ some Entry.dir) :
    fs.copyFile src dst = Except.ok (fs.writeSet dst (Entry.file b)) := by
  rw [copyFile_spec fs src dst b hne hsrc (fun q hq => by rw [hall q hq]; rfl) hdst]
  have hfil : dst.dropLast.inits.filter (fun q => fs.stat q = none) = [] := by
    rw [List.filter_eq_nil_iff]
    intro q hq
    simp [hall q ((List.mem_inits q dst.dropLast).mp hq)]
  rw [hfil]
  rfl

theorem relUnder_append (src rel : Path) (e : Entry) :
    relUnder src (src ++ rel, e) = some (rel, e) := by
  rw [relUnder, if_pos (List.isPrefixOf_iff_prefix.mpr (List.prefix_append src rel))]
  simp [List.drop_left]

theorem relUnder_none (src : Path) (pe : Path × Entry) (h : ¬ src <+: pe.1) :
    relUnder src pe = none := by
  rw [relUnder, if_neg]
  intro hb
  exact h (List.isPrefixOf_iff_prefix.mp hb)

theorem filterMap_relUnder_nil (src : Path) (es : List (Path × Entry))
    (h : ∀ pe ∈ es, ¬ src <+: pe.1) : es.filterMap (relUnder src) = [] := by
  induction es with
  | nil => rfl
  | cons pe rest ih =>
    rw [List.filterMap_cons, relUnder_none src pe (h pe (by simp))]
    exact ih (fun pe2 h2 => h pe2 (by simp [h2]))

theorem saver_ne_swiftfile (pn : String) : pn ++ ".saver" ≠ "VideoSaver.swift" := by
  intro h
  have hd := congrArg String.data h
  rw [String.data_append] at hd
  have hr := congrArg List.reverse hd
  rw [List.reverse_append] at hr
  have h1 : (".saver" : String).data = ['.', 's', 'a', 'v', 'e', 'r'] := rfl
  have h2 : ("VideoSaver.swift" : String).data =
      ['V', 'i', 'd', 'e', 'o', 'S', 'a', 'v', 'e', 'r', '.', 's', 'w', 'i', 'f', 't'] := rfl
  rw [h1, h2] at hr
  simp at hr

theorem append_ne_self_of_ne_nil (t l : Path) (h : l ≠ []) : t ++ l ≠ t := by
  intro he
  have hlen := congrArg List.length he
  rw [List.length_append] at hlen
  have : l.length = 0 := by omega
  exact h (List.length_eq_zero.mp this)

theorem not_pfx_of_length_lt {l1 l2 : Path} (h : l2.length < l1.length) : ¬ l1 <+: l2 :=
  fun hp => absurd hp.length_le (by omega)

theorem stat_cons_ne (pe : Path × Entry) (rest : List (Path × Entry)) (q : Path)
    (h : pe.1 ≠ q) : statList (pe :: rest) q = statList rest q := by
  rw [statList_cons, if_neg h]

theorem ne_of_length_ne {α : Type _} {l1 l2 : List α} (h : l1.length ≠ l2.length) :
    l1 ≠ l2 := fun he => h (by rw [he])

theorem hall_extend (fs : FS) (p : Path) (x : String)
    (hall : ∀ q, q <+: p → fs.stat q = some Entry.dir) :
    ∀ q, q <+: p ++ [x] → (fs.writeSet (p ++ [x]) Entry.dir).stat q = some Entry.dir := by
  intro q hq
  rw [stat_writeSet]
  by_cases he : p ++ [x] = q
  · rw [if_pos he]
  · rw [if_neg he]
    rcases List.prefix_concat_iff.mp hq with h1 | h2
    · exact absurd h1.symm he
    · exact hall q h2

theorem hall_preserve (fs : FS) (p π : Path) (e : Entry)
    (hall : ∀ q, q <+: p → fs.stat q = some Entry.dir)
    (hlen : p.length < π.length) :
    ∀ q, q <+: p → (fs.writeSet π e).stat q = some Entry.dir := by
  intro q hq
  rw [stat_writeSet, if_neg]
  · exact hall q hq
  · intro he
    have := hq.length_le
    rw [← he] at this
    omega

theorem stat_mk_cons (pe : Path × Entry) (rest : List (Path × Entry)) (q : Path) :
    (FS.mk (pe :: rest)).stat q = if pe.1 = q then some pe.2 else statList rest q := rfl

theorem mkdirAll_one_new (fs : FS) (p : Path) (x : String)
    (hall : ∀ q, q <+: p → fs.stat q = some Entry.dir)
    (hnew : fs.stat (p ++ [x]) = none) :
    fs.mkdirAll (p ++ [x]) = Except.ok (fs.writeSet (p ++ [x]) Entry.dir) := by
  have hfile : ∀ q, q <+: p ++ [x] → isFileO (fs.stat q) = false := by
    intro q hq
    rcases List.prefix_concat_iff.mp hq with h1 | h2
    · rw [h1, hnew]
      rfl
    · rw [hall q h2]
      rfl
  rw [mkdirAll_spec fs (p ++ [x]) hfile]
  have hinits : (p ++ [x]).inits = p.inits ++ [p ++ [x]] := by
    simp [List.inits_append]
  have hfil : List.filter (fun q => decide (fs.stat q = none)) ((p ++ [x]).inits) = [p ++ [x]] := by
    rw [hinits, List.filter_append]
    have h1 : List.filter (fun q => decide (fs.stat q = none)) p.inits = [] := by
      rw [List.filter_eq_nil_iff]
      intro q hq
      simp [hall q ((List.mem_inits q p).mp hq)]
    have h2 : List.filter (fun q => decide (fs.stat q = none)) [p ++ [x]] = [p ++ [x]] := by
      simp [hnew]
    rw [h1, h2, List.nil_append]
  rw [hfil]
  rfl

theorem mkdir_child_ok (t : Path) (b : String) (fs₀ : FS)
    (hft : freshUnder fs₀ t = true)
    (hnt : noFileAlong fs₀ t = true) :
    ∃ dsp : List Path,
      (∀ q ∈ dsp, q <+: t ∧ t ≠ q ∧ fs₀.stat q = none) ∧
      (fs₀.writeSet t Entry.dir).mkdirAll (t ++ [b]) =
        Except.ok (FS.mk ((t ++ [b], Entry.dir) ::
          (dsp.map (fun q => (q, Entry.dir)) ++ (fs₀.writeSet t Entry.dir).entries))) ∧
      (∀ q, (FS.mk ((t ++ [b], Entry.dir) ::
          (dsp.map (fun q => (q, Entry.dir)) ++ (fs₀.writeSet t Entry.dir).entries))).stat q =
        if t ++ [b] = q then some Entry.dir
        else if q ∈ dsp then some Entry.dir
        else if t = q then some Entry.dir else fs₀.stat q) ∧
      (∀ q, q <+: t ++ [b] →
        (FS.mk ((t ++ [b], Entry.dir) ::
          (dsp.map (fun q => (q, Entry.dir)) ++ (fs₀.writeSet t Entry.dir).entries))).stat q =
        some Entry.dir) := by
  have hfresh : ∀ r, fs₀.stat (t ++ r) = none := stat_none_of_fresh fs₀ t hft
  have hnof : ∀ q, q <+: t → isFileO (fs₀.stat q) = false :=
    fun q hq => noFileAlong_spec fs₀ t hnt hq
  -- the scratch root itself is fresh
  have hbne : t ++ [b] ≠ t := append_ne_self_of_ne_nil t _ (by simp)
  have hstatT : ∀ q, (fs₀.writeSet t Entry.dir).stat q =
      if t = q then some Entry.dir else fs₀.stat q := fun q => stat_writeSet fs₀ t Entry.dir q
  -- Step 1: mkdirAll of the bundle root
  have hfile1 : ∀ q, q <+: t ++ [b] →
      isFileO ((fs₀.writeSet t Entry.dir).stat q) = false := by
    intro q hq
    rcases List.prefix_concat_iff.mp hq with h1 | h2
    · subst h1
      rw [hstatT, if_neg (fun he => hbne he.symm), hfresh [b]]
      rfl
    · rw [hstatT]
      by_cases hqt : t = q
      · rw [if_pos hqt]
        rfl
      · rw [if_neg hqt]
        exact hnof q h2
  have hmk1 := mkdirAll_spec (fs₀.writeSet t Entry.dir) (t ++ [b]) hfile1
  have hstatb : (fs₀.writeSet t Entry.dir).stat (t ++ [b]) = none := by
    rw [hstatT, if_neg (fun he => hbne he.symm)]
    exact hfresh [b]
  have hinits1 : (t ++ [b]).inits = t.inits ++ [t ++ [b]] := by
    simp [List.inits_append]
  have hfil1 : List.filter (fun q => decide ((fs₀.writeSet t Entry.dir).stat q = none))
        ((t ++ [b]).inits) =
      (t.inits.filter (fun q => decide ((fs₀.writeSet t Entry.dir).stat q = none))) ++
        [t ++ [b]] := by
    rw [hinits1, List.filter_append]
    congr 1
    simp [hstatb]
  rw [hfil1] at hmk1
  rw [List.reverse_append, List.reverse_singleton, List.singleton_append, List.map_cons] at hmk1
  -- name the symbolic list of created ancestors of t
  obtain ⟨dsp, hdspdef⟩ :
      ∃ dsp, dsp = (t.inits.filter
        (fun q => decide ((fs₀.writeSet t Entry.dir).stat q = none))).reverse := ⟨_, rfl⟩
  rw [← hdspdef] at hmk1
  have hdsp : ∀ q ∈ dsp, q <+: t ∧ t ≠ q ∧ fs₀.stat q = none := by
    intro q hq
    rw [hdspdef, List.mem_reverse, List.mem_filter] at hq
    have hpfx := (List.mem_inits q t).mp hq.1
    have hst := of_decide_eq_true hq.2
    rw [hstatT] at hst
    by_cases hqt : t = q
    · rw [if_pos hqt] at hst
      exact absurd hst (by simp)
    · rw [if_neg hqt] at hst
      exact ⟨hpfx, hqt, hst⟩
  -- the filesystem after step 1
  have hstat1 : ∀ q, (FS.mk ((t ++ [b], Entry.dir) ::
        (dsp.map (fun q => (q, Entry.dir)) ++ (fs₀.writeSet t Entry.dir).entries))).stat q =
      if t ++ [b] = q then some Entry.dir
      else if q ∈ dsp then some Entry.dir
      else if t = q then some Entry.dir else fs₀.stat q := by
    intro q
    show statList _ _ = _
    rw [statList_cons]
    by_cases h1 : t ++ [b] = q
    · rw [if_pos h1, if_pos h1]
    · rw [if_neg h1, if_neg h1]
      have : (fs₀.writeSet t Entry.dir).entries = (t, Entry.dir) :: fs₀.entries := rfl
      rw [this, statList_dirs]
      by_cases h2 : q ∈ dsp
      · rw [if_pos h2, if_pos h2]
      · rw [if_neg h2, if_neg h2, statList_cons]
        by_cases h3 : t = q
        · rw [if_pos h3, if_pos h3]
        · rw [if_neg h3, if_neg h3]
          rfl
  have hall1 : ∀ q, q <+: t ++ [b] →
      (FS.mk ((t ++ [b], Entry.dir) ::
        (dsp.map (fun q => (q, Entry.dir)) ++ (fs₀.writeSet t Entry.dir).entries))).stat q =
      some Entry.dir := by
    intro q hq
    rw [hstat1]
    by_cases h1 : t ++ [b] = q
    · rw [if_pos h1]
    by_cases h2 : q ∈ dsp
    · rw [if_neg h1, if_pos h2]
    by_cases h3 : t = q
    · rw [if_neg h1, if_neg h2, if_pos h3]
    rw [if_neg h1, if_neg h2, if_neg h3]
    rcases List.prefix_concat_iff.mp hq with he | hpfx
    · exact absurd he.symm h1
    cases hc : fs₀.stat q with
    | none =>
      exfalso
      apply h2
      rw [hdspdef, List.mem_reverse, List.mem_filter]
      refine ⟨(List.mem_inits q t).mpr hpfx, ?_⟩
      rw [decide_eq_true_iff, hstatT, if_neg h3]
      exact hc
    | some e =>
      cases e with
      | dir => rfl
      | file bb =>
        have := hnof q hpfx
        rw [hc] at this
        simp [isFileO] at this
  rw [List.cons_append] at hmk1
  exact ⟨dsp, hdsp, hmk1, hstat1, hall1⟩

theorem swiftScaffold_ok (t : Path) (pn : String) (fs₀ : FS)
    (hft : freshUnder fs₀ t = true)
    (hnt : noFileAlong fs₀ t = true) :
    ∃ dsp : List Path, ∃ fsS : FS,
      (∀ q ∈ dsp, q <+: t ∧ t ≠ q ∧ fs₀.stat q = none) ∧
      mkdirSeq (fs₀.writeSet t Entry.dir)
        [t ++ [pn ++ ".saver"],
         (t ++ [pn ++ ".saver"]) ++ ["Contents"],
         ((t ++ [pn ++ ".saver"]) ++ ["Contents"]) ++ ["MacOS"],
         ((t ++ [pn ++ ".saver"]) ++ ["Contents"]) ++ ["Resources"]] = (fsS, none) ∧
      fsS.entries =
        ((((t ++ [pn ++ ".saver"]) ++ ["Contents"]) ++ ["Resources"], Entry.dir) ::
         ((((t ++ [pn ++ ".saver"]) ++ ["Contents"]) ++ ["MacOS"], Entry.dir) ::
         (((t ++ [pn ++ ".saver"]) ++ ["Contents"], Entry.dir) ::
         ((t ++ [pn ++ ".saver"], Entry.dir) ::
          (dsp.map (fun q => (q, Entry.dir)) ++ (t, Entry.dir) :: fs₀.entries))))) ∧
      (∀ q, fsS.stat q =
        if ((t ++ [pn ++ ".saver"]) ++ ["Contents"]) ++ ["Resources"] = q then some Entry.dir
        else if ((t ++ [pn ++ ".saver"]) ++ ["Contents"]) ++ ["MacOS"] = q then some Entry.dir
        else if (t ++ [pn ++ ".saver"]) ++ ["Contents"] = q then some Entry.dir
        else if t ++ [pn ++ ".saver"] = q then some Entry.dir
        else if q ∈ dsp then some Entry.dir
        else if t = q then some Entry.dir
        else fs₀.stat q) ∧
      (∀ q, q <+: ((t ++ [pn ++ ".saver"]) ++ ["Contents"]) ++ ["Resources"] →
        fsS.stat q = some Entry.dir) := by
  have hfresh : ∀ r, fs₀.stat (t ++ r) = none := stat_none_of_fresh fs₀ t hft
  obtain ⟨dsp, hdsp, hmk1, hstat1, hall1⟩ := mkdir_child_ok t (pn ++ ".saver") fs₀ hft hnt
  have hnot_dsp_long : ∀ q : Path, t.length < q.length → q ∉ dsp := by
    intro q hlen hq
    have := (hdsp q hq).1.length_le
    omega
  -- step 2: create Contents
  have hnew2 : (FS.mk ((t ++ [pn ++ ".saver"], Entry.dir) ::
      (dsp.map (fun q => (q, Entry.dir)) ++ (fs₀.writeSet t Entry.dir).entries))).stat
      ((t ++ [pn ++ ".saver"]) ++ ["Contents"]) = none := by
    rw [hstat1]
    rw [if_neg (fun he => (append_ne_self_of_ne_nil _ ["Contents"] (by simp)) he.symm)]
    rw [if_neg (fun hm => hnot_dsp_long _
      (by simp only [List.length_append, List.length_cons, List.length_nil]; omega) hm)]
    rw [if_neg (ne_of_length_ne
      (by simp only [List.length_append, List.length_cons, List.length_nil]; omega))]
    rw [List.append_assoc]
    exact hfresh _
  have hmk2 := mkdirAll_one_new _ (t ++ [pn ++ ".saver"]) "Contents" hall1 hnew2
  have hall2 := hall_extend _ (t ++ [pn ++ ".saver"]) "Contents" hall1
  -- step 3: create MacOS
  have hnew3 : ((FS.mk ((t ++ [pn ++ ".saver"], Entry.dir) ::
      (dsp.map (fun q => (q, Entry.dir)) ++ (fs₀.writeSet t Entry.dir).entries))).writeSet
        ((t ++ [pn ++ ".saver"]) ++ ["Contents"]) Entry.dir).stat
      (((t ++ [pn ++ ".saver"]) ++ ["Contents"]) ++ ["MacOS"]) = none := by
    rw [stat_writeSet]
    rw [if_neg (fun he => (append_ne_self_of_ne_nil _ ["MacOS"] (by simp)) he.symm)]
    rw [hstat1]
    rw [if_neg (ne_of_length_ne
      (by simp only [List.length_append, List.length_cons, List.length_nil]; omega))]
    rw [if_neg (fun hm => hnot_dsp_long _
      (by simp only [List.length_append, List.length_cons, List.length_nil]; omega) hm)]
    rw [if_neg (ne_of_length_ne
      (by simp only [List.length_append, List.length_cons, List.length_nil]; omega))]
    rw [List.append_assoc, List.append_assoc]
    exact hfresh _
  have hmk3 := mkdirAll_one_new _ ((t ++ [pn ++ ".saver"]) ++ ["Contents"]) "MacOS" hall2 hnew3
  have hall3 := hall_preserve _ ((t ++ [pn ++ ".saver"]) ++ ["Contents"])
    (((t ++ [pn ++ ".saver"]) ++ ["Contents"]) ++ ["MacOS"]) Entry.dir hall2
    (by simp only [List.length_append, List.length_cons, List.length_nil]; omega)
  -- step 4: create Resources
  have hnew4 : (((FS.mk ((t ++ [pn ++ ".saver"], Entry.dir) ::
      (dsp.map (fun q => (q, Entry.dir)) ++ (fs₀.writeSet t Entry.dir).entries))).writeSet
        ((t ++ [pn ++ ".saver"]) ++ ["Contents"]) Entry.dir).writeSet
        (((t ++ [pn ++ ".saver"]) ++ ["Contents"]) ++ ["MacOS"]) Entry.dir).stat
      (((t ++ [pn ++ ".saver"]) ++ ["Contents"]) ++ ["Resources"]) = none := by
    rw [stat_writeSet]
    rw [if_neg (fun he => absurd ((List.append_right_inj _).mp he) (by decide))]
    rw [stat_writeSet]
    rw [if_neg (fun he => (append_ne_self_of_ne_nil _ ["Resources"] (by simp)) he.symm)]
    rw [hstat1]
    rw [if_neg (ne_of_length_ne
      (by simp only [List.length_append, List.length_cons, List.length_nil]; omega))]
    rw [if_neg (fun hm => hnot_dsp_long _
      (by simp only [List.length_append, List.length_cons, List.length_nil]; omega) hm)]
    rw [if_neg (ne_of_length_ne
      (by simp only [List.length_append, List.length_cons, List.length_nil]; omega))]
    rw [List.append_assoc, List.append_assoc]
    exact hfresh _
  have hmk4 := mkdirAll_one_new _ ((t ++ [pn ++ ".saver"]) ++ ["Contents"]) "Resources" hall3 hnew4
  have hall4 := hall_extend _ ((t ++ [pn ++ ".saver"]) ++ ["Contents"]) "Resources" hall3
  -- the filesystem after the scaffold loop, and its stat characterisation
  have hstat4 : ∀ q, ((((FS.mk ((t ++ [pn ++ ".saver"], Entry.dir) ::
      (dsp.map (fun q => (q, Entry.dir)) ++ (fs₀.writeSet t Entry.dir).entries))).writeSet
        ((t ++ [pn ++ ".saver"]) ++ ["Contents"]) Entry.dir).writeSet
        (((t ++ [pn ++ ".saver"]) ++ ["Contents"]) ++ ["MacOS"]) Entry.dir).writeSet
        (((t ++ [pn ++ ".saver"]) ++ ["Contents"]) ++ ["Resources"]) Entry.dir).stat q =
      if ((t ++ [pn ++ ".saver"]) ++ ["Contents"]) ++ ["Resources"] = q then some Entry.dir
      else if ((t ++ [pn ++ ".saver"]) ++ ["Contents"]) ++ ["MacOS"] = q then some Entry.dir
      else if (t ++ [pn ++ ".saver"]) ++ ["Contents"] = q then some Entry.dir
      else if t ++ [pn ++ ".saver"] = q then some Entry.dir
      else if q ∈ dsp then some Entry.dir
      else if t = q then some Entry.dir
      else fs₀.stat q := by
    intro q
    rw [stat_writeSet, stat_writeSet, stat_writeSet, hstat1]
  -- stage the media asset
  have hseq : mkdirSeq (fs₀.writeSet t Entry.dir)
      [t ++ [pn ++ ".saver"],
       (t ++ [pn ++ ".saver"]) ++ ["Contents"],
       ((t ++ [pn ++ ".saver"]) ++ ["Contents"]) ++ ["MacOS"],
       ((t ++ [pn ++ ".saver"]) ++ ["Contents"]) ++ ["Resources"]] =
      ((((FS.mk ((t ++ [pn ++ ".saver"], Entry.dir) ::
        (dsp.map (fun q => (q, Entry.dir)) ++ (fs₀.writeSet t Entry.dir).entries))).writeSet
          ((t ++ [pn ++ ".saver"]) ++ ["Contents"]) Entry.dir).writeSet
          (((t ++ [pn ++ ".saver"]) ++ ["Contents"]) ++ ["MacOS"]) Entry.dir).writeSet
          (((t ++ [pn ++ ".saver"]) ++ ["Contents"]) ++ ["Resources"]) Entry.dir, none) := by
    simp only [mkdirSeq, hmk1, hmk2, hmk3, hmk4]
  refine ⟨dsp, _, hdsp, hseq, rfl, hstat4, hall4⟩

theorem swiftStageA_ok (inPath t : Path) (pn : String) (fs₀ : FS) (inB : Bytes)
    (hin : fs₀.stat inPath = some (Entry.file inB))
    (hft : freshUnder fs₀ t = true)
    (hnt : noFileAlong fs₀ t = true) :
    ∃ dsp : List Path,
      (∀ q ∈ dsp, q <+: t ∧ t ≠ q ∧ fs₀.stat q = none) ∧
      swiftStageA inPath t pn (fs₀.writeSet t Entry.dir) =
        (FS.mk (stageAEntries t pn inB ++
          (dsp.map (fun q => (q, Entry.dir)) ++ (t, Entry.dir) :: fs₀.entries)), none) := by
  have hfresh : ∀ r, fs₀.stat (t ++ r) = none := stat_none_of_fresh fs₀ t hft
  obtain ⟨dsp, fsS, hdsp, hseq, hSent, hstat4, hall4⟩ := swiftScaffold_ok t pn fs₀ hft hnt
  refine ⟨dsp, hdsp, ?_⟩
  have hnot_dsp_long : ∀ q : Path, t.length < q.length → q ∉ dsp := by
    intro q hlen hq
    have := (hdsp q hq).1.length_le
    omega
  have hInT : ∀ r : Path, t ++ r ≠ inPath := by
    intro r he
    have hf := hfresh r
    rw [he, hin] at hf
    exact Option.noConfusion hf
  have hsrc4 : fsS.stat inPath =
      some (Entry.file inB) := by
    rw [hstat4]
    rw [if_neg (fun he => hInT [pn ++ ".saver", "Contents", "Resources"]
      (by rw [← he]; simp))]
    rw [if_neg (fun he => hInT [pn ++ ".saver", "Contents", "MacOS"]
      (by rw [← he]; simp))]
    rw [if_neg (fun he => hInT [pn ++ ".saver", "Contents"] (by rw [← he]; simp))]
    rw [if_neg (fun he => hInT [pn ++ ".saver"] he)]
    rw [if_neg (fun hm => by
      have := (hdsp inPath hm).2.2
      rw [hin] at this
      exact Option.noConfusion this)]
    rw [if_neg (fun he => hInT [] (by rw [List.append_nil]; exact he))]
    exact hin
  have hpaynone : fsS.stat
      ((((t ++ [pn ++ ".saver"]) ++ ["Contents"]) ++ ["Resources"]) ++ ["payload.mp4"]) =
      none := by
    rw [hstat4]
    rw [if_neg (fun he => (append_ne_self_of_ne_nil _ ["payload.mp4"] (by simp)) he.symm)]
    rw [if_neg (ne_of_length_ne
      (by simp only [List.length_append, List.length_cons, List.length_nil]; omega))]
    rw [if_neg (ne_of_length_ne
      (by simp only [List.length_append, List.length_cons, List.length_nil]; omega))]
    rw [if_neg (ne_of_length_ne
      (by simp only [List.length_append, List.length_cons, List.length_nil]; omega))]
    rw [if_neg (fun hm => hnot_dsp_long _
      (by simp only [List.length_append, List.length_cons, List.length_nil]; omega) hm)]
    rw [if_neg (ne_of_length_ne
      (by simp only [List.length_append, List.length_cons, List.length_nil]; omega))]
    rw [List.append_assoc, List.append_assoc, List.append_assoc]
    exact hfresh _
  have hcopy := copyFile_existing _ inPath
    ((((t ++ [pn ++ ".saver"]) ++ ["Contents"]) ++ ["Resources"]) ++ ["payload.mp4"]) inB
    (by simp) hsrc4
    (fun q hq => hall4 q (by rwa [List.dropLast_concat] at hq))
    (by rw [hpaynone]; simp)
  -- emit Info.plist
  have hparC : (fsS.writeSet
        ((((t ++ [pn ++ ".saver"]) ++ ["Contents"]) ++ ["Resources"]) ++ ["payload.mp4"])
        (Entry.file inB)).stat ((t ++ [pn ++ ".saver"]) ++ ["Contents"]) = some Entry.dir := by
    rw [stat_writeSet]
    rw [if_neg (ne_of_length_ne
      (by simp only [List.length_append, List.length_cons, List.length_nil]; omega))]
    rw [hstat4]
    rw [if_neg (fun he => (append_ne_self_of_ne_nil _ ["Resources"] (by simp)) he)]
    rw [if_neg (fun he => (append_ne_self_of_ne_nil _ ["MacOS"] (by simp)) he)]
    rw [if_pos rfl]
  have hplnone : (fsS.writeSet
        ((((t ++ [pn ++ ".saver"]) ++ ["Contents"]) ++ ["Resources"]) ++ ["payload.mp4"])
        (Entry.file inB)).stat (((t ++ [pn ++ ".saver"]) ++ ["Contents"]) ++ ["Info.plist"]) =
      none := by
    rw [stat_writeSet]
    rw [if_neg (ne_of_length_ne
      (by simp only [List.length_append, List.length_cons, List.length_nil]; omega))]
    rw [hstat4]
    rw [if_neg (fun he => absurd ((List.append_right_inj _).mp he) (by decide))]
    rw [if_neg (fun he => absurd ((List.append_right_inj _).mp he) (by decide))]
    rw [if_neg (fun he => (append_ne_self_of_ne_nil _ ["Info.plist"] (by simp)) he.symm)]
    rw [if_neg (ne_of_length_ne
      (by simp only [List.length_append, List.length_cons, List.length_nil]; omega))]
    rw [if_neg (fun hm => hnot_dsp_long _
      (by simp only [List.length_append, List.length_cons, List.length_nil]; omega) hm)]
    rw [if_neg (ne_of_length_ne
      (by simp only [List.length_append, List.length_cons, List.length_nil]; omega))]
    rw [List.append_assoc, List.append_assoc]
    exact hfresh _
  have hw1 := writeFile_spec _ (((t ++ [pn ++ ".saver"]) ++ ["Contents"]) ++ ["Info.plist"])
    (strBytes (infoPlist pn))
    (by rw [List.dropLast_concat]; exact hparC)
    (by rw [hplnone]; simp)
  -- emit VideoSaver.swift
  have hparT : (FS.mk (((((t ++ [pn ++ ".saver"]) ++ ["Contents"]) ++ ["Info.plist"]),
      Entry.file (strBytes (infoPlist pn))) ::
      (fsS.writeSet
        ((((t ++ [pn ++ ".saver"]) ++ ["Contents"]) ++ ["Resources"]) ++ ["payload.mp4"])
        (Entry.file inB)).entries)).stat t = some Entry.dir := by
    rw [stat_mk_cons]
    rw [if_neg (ne_of_length_ne
      (by simp only [List.length_append, List.length_cons, List.length_nil]; omega))]
    show (fsS.writeSet
        ((((t ++ [pn ++ ".saver"]) ++ ["Contents"]) ++ ["Resources"]) ++ ["payload.mp4"])
        (Entry.file inB)).stat t = some Entry.dir
    rw [stat_writeSet]
    rw [if_neg (ne_of_length_ne
      (by simp only [List.length_append, List.length_cons, List.length_nil]; omega))]
    rw [hstat4]
    rw [if_neg (ne_of_length_ne
      (by simp only [List.length_append, List.length_cons, List.length_nil]; omega))]
    rw [if_neg (ne_of_length_ne
      (by simp only [List.length_append, List.length_cons, List.length_nil]; omega))]
    rw [if_neg (ne_of_length_ne
      (by simp only [List.length_append, List.length_cons, List.length_nil]; omega))]
    rw [if_neg (ne_of_length_ne
      (by simp only [List.length_append, List.length_cons, List.length_nil]; omega))]
    rw [if_neg (fun hm => absurd rfl (hdsp t hm).2.1)]
    rw [if_pos rfl]
  have hswnone : (FS.mk (((((t ++ [pn ++ ".saver"]) ++ ["Contents"]) ++ ["Info.plist"]),
      Entry.file (strBytes (infoPlist pn))) ::
      (fsS.writeSet
        ((((t ++ [pn ++ ".saver"]) ++ ["Contents"]) ++ ["Resources"]) ++ ["payload.mp4"])
        (Entry.file inB)).entries)).stat (t ++ ["VideoSaver.swift"]) = none := by
    rw [stat_mk_cons]
    rw [if_neg (ne_of_length_ne
      (by simp only [List.length_append, List.length_cons, List.length_nil]; omega))]
    show (fsS.writeSet
        ((((t ++ [pn ++ ".saver"]) ++ ["Contents"]) ++ ["Resources"]) ++ ["payload.mp4"])
        (Entry.file inB)).stat (t ++ ["VideoSaver.swift"]) = none
    rw [stat_writeSet]
    rw [if_neg (ne_of_length_ne
      (by simp only [List.length_append, List.length_cons, List.length_nil]; omega))]
    rw [hstat4]
    rw [if_neg (ne_of_length_ne
      (by simp only [List.length_append, List.length_cons, List.length_nil]; omega))]
    rw [if_neg (ne_of_length_ne
      (by simp only [List.length_append, List.length_cons, List.length_nil]; omega))]
    rw [if_neg (ne_of_length_ne
      (by simp only [List.length_append, List.length_cons, List.length_nil]; omega))]
    rw [if_neg (fun he => by
      have h2 := (List.append_right_inj t).mp he
      simp only [List.cons.injEq, and_true] at h2
      exact saver_ne_swiftfile pn h2)]
    rw [if_neg (fun hm => hnot_dsp_long _
      (by simp only [List.length_append, List.length_cons, List.length_nil]; omega) hm)]
    rw [if_neg (fun he => (append_ne_self_of_ne_nil t ["VideoSaver.swift"] (by simp)) he.symm)]
    exact hfresh ["VideoSaver.swift"]
  have hw2 := writeFile_spec _ (t ++ ["VideoSaver.swift"]) (strBytes (swiftSaverClass pn))
    (by rw [List.dropLast_concat]; exact hparT)
    (by rw [hswnone]; simp)
  show swiftStageA inPath t pn (fs₀.writeSet t Entry.dir) = _
  simp only [swiftStageA, hseq, hcopy, hw1, hw2]
  simp only [Prod.mk.injEq, and_true]
  simp [stageAEntries, FS.writeSet, hSent, List.append_assoc]

theorem hall_preserve2 (fs : FS) (p π : Path) (e : Entry)
    (hall : ∀ q, q <+: p → fs.stat q = some Entry.dir)
    (hn : ¬ π <+: p) :
    ∀ q, q <+: p → (fs.writeSet π e).stat q = some Entry.dir := by
  intro q hq
  rw [stat_writeSet, if_neg]
  · exact hall q hq
  · intro he
    rw [he] at hn
    exact hn hq

theorem promote_ok (t outP : Path) (pn : String) (fs₀ : FS) (inB bin : Bytes) (dsp : List Path)
    (hdsp : ∀ q ∈ dsp, q <+: t ∧ t ≠ q ∧ fs₀.stat q = none)
    (hft : freshUnder fs₀ t = true)
    (hfo : freshUnder fs₀ outP = true)
    (hno : noFileAlong fs₀ outP = true)
    (hto : ¬ t <+: outP)
    (hot : ¬ outP <+: t) :
    ∃ fsF : FS,
      (FS.mk (((t ++ [pn ++ ".saver"]) ++ ["Contents", "MacOS", "VideoSaver"], Entry.file bin) ::
        (stageAEntries t pn inB ++ (dsp.map (fun q => (q, Entry.dir)) ++
          (t, Entry.dir) :: fs₀.entries)))).copyTree (t ++ [pn ++ ".saver"]) outP =
        Except.ok fsF ∧
      ∀ r, fsF.stat (outP ++ r) = bundleStat (strBytes (infoPlist pn)) bin inB r := by
  have hfresh : ∀ r, fs₀.stat (t ++ r) = none := stat_none_of_fresh fs₀ t hft
  have hfreshO : ∀ r, fs₀.stat (outP ++ r) = none := stat_none_of_fresh fs₀ outP hfo
  have hsep : ∀ (r1 r2 : Path), t ++ r1 ≠ outP ++ r2 := by
    intro r1 r2 he
    rcases le_total t.length outP.length with hle | hle
    · refine hto (List.prefix_of_prefix_length_le ?_ (List.prefix_append outP r2) hle)
      rw [← he]
      exact List.prefix_append t r1
    · refine hot (List.prefix_of_prefix_length_le (List.prefix_append outP r2) ?_ hle)
      rw [← he]
      exact List.prefix_append t r1
  have hsep2 : ∀ (r q : Path), t ++ r = q → q <+: outP → False := by
    intro r q he hq
    obtain ⟨s, hs⟩ := hq
    apply hsep (r ++ s) []
    rw [List.append_nil, ← List.append_assoc, he, hs]
  -- the staged filesystem, with the compiled binary in place
  obtain ⟨fs5, hfs5⟩ :
      ∃ x, x = FS.mk (((t ++ [pn ++ ".saver"]) ++ ["Contents", "MacOS", "VideoSaver"],
        Entry.file bin) ::
        (stageAEntries t pn inB ++ (dsp.map (fun q => (q, Entry.dir)) ++
          (t, Entry.dir) :: fs₀.entries))) := ⟨_, rfl⟩
  rw [← hfs5]
  have hstat5 : ∀ q, fs5.stat q =
      if t ++ [pn ++ ".saver", "Contents", "MacOS", "VideoSaver"] = q then
        some (Entry.file bin)
      else if t ++ ["VideoSaver.swift"] = q then
        some (Entry.file (strBytes (swiftSaverClass pn)))
      else if t ++ [pn ++ ".saver", "Contents", "Info.plist"] = q then
        some (Entry.file (strBytes (infoPlist pn)))
      else if t ++ [pn ++ ".saver", "Contents", "Resources", "payload.mp4"] = q then
        some (Entry.file inB)
      else if t ++ [pn ++ ".saver", "Contents", "Resources"] = q then some Entry.dir
      else if t ++ [pn ++ ".saver", "Contents", "MacOS"] = q then some Entry.dir
      else if t ++ [pn ++ ".saver", "Contents"] = q then some Entry.dir
      else if t ++ [pn ++ ".saver"] = q then some Entry.dir
      else if q ∈ dsp then some Entry.dir
      else if t = q then some Entry.dir
      else fs₀.stat q := by
    intro q
    rw [hfs5]
    show statList _ q = _
    simp only [stageAEntries, List.cons_append, List.nil_append, statList_cons,
      statList_dirs, List.append_assoc]
    rfl
  have hstatOutNone : ∀ r, fs5.stat (outP ++ r) = none := by
    intro r
    rw [hstat5]
    rw [if_neg (hsep [pn ++ ".saver", "Contents", "MacOS", "VideoSaver"] r)]
    rw [if_neg (hsep ["VideoSaver.swift"] r)]
    rw [if_neg (hsep [pn ++ ".saver", "Contents", "Info.plist"] r)]
    rw [if_neg (hsep [pn ++ ".saver", "Contents", "Resources", "payload.mp4"] r)]
    rw [if_neg (hsep [pn ++ ".saver", "Contents", "Resources"] r)]
    rw [if_neg (hsep [pn ++ ".saver", "Contents", "MacOS"] r)]
    rw [if_neg (hsep [pn ++ ".saver", "Contents"] r)]
    rw [if_neg (hsep [pn ++ ".saver"] r)]
    rw [if_neg (fun hm => hot (List.IsPrefix.trans (List.prefix_append outP r) (hdsp _ hm).1))]
    rw [if_neg (fun he => hsep [] r (by rw [List.append_nil]; exact he))]
    exact hfreshO r
  have hstatOutNone0 : fs5.stat outP = none := by
    have h := hstatOutNone []
    rwa [List.append_nil] at h
  have hfile5 : ∀ q, q <+: outP → isFileO (fs5.stat q) = false := by
    intro q hq
    rw [hstat5]
    rw [if_neg (fun he => hsep2 [pn ++ ".saver", "Contents", "MacOS", "VideoSaver"] q he hq)]
    rw [if_neg (fun he => hsep2 ["VideoSaver.swift"] q he hq)]
    rw [if_neg (fun he => hsep2 [pn ++ ".saver", "Contents", "Info.plist"] q he hq)]
    rw [if_neg (fun he =>
      hsep2 [pn ++ ".saver", "Contents", "Resources", "payload.mp4"] q he hq)]
    split_ifs <;> first | rfl | exact noFileAlong_spec fs₀ outP hno hq
  -- promote step 1: recreate the bundle root at the output path
  have hmk1 := mkdirAll_spec fs5 outP hfile5
  obtain ⟨ds2, hds2def⟩ :
      ∃ x, x = (outP.inits.filter (fun q => decide (fs5.stat q = none))).reverse := ⟨_, rfl⟩
  rw [← hds2def] at hmk1
  have hds2 : ∀ q ∈ ds2, q <+: outP ∧ fs5.stat q = none := by
    intro q hq
    rw [hds2def, List.mem_reverse, List.mem_filter] at hq
    exact ⟨(List.mem_inits q outP).mp hq.1, of_decide_eq_true hq.2⟩
  have houtds2 : outP ∈ ds2 := by
    rw [hds2def, List.mem_reverse, List.mem_filter]
    exact ⟨(List.mem_inits outP outP).mpr List.prefix_rfl, by simp [hstatOutNone0]⟩
  have hnot_ds2_long : ∀ q : Path, outP.length < q.length → q ∉ ds2 := by
    intro q hlen hq
    have := (hds2 q hq).1.length_le
    omega
  have hstat6 : ∀ q, (FS.mk (ds2.map (fun q => (q, Entry.dir)) ++ fs5.entries)).stat q =
      if q ∈ ds2 then some Entry.dir else fs5.stat q := by
    intro q
    show statList _ q = _
    rw [statList_dirs]
    rfl
  have hallO : ∀ q, q <+: outP →
      (FS.mk (ds2.map (fun q => (q, Entry.dir)) ++ fs5.entries)).stat q = some Entry.dir := by
    intro q hq
    rw [hstat6]
    by_cases hm : q ∈ ds2
    · rw [if_pos hm]
    · rw [if_neg hm]
      cases hc : fs5.stat q with
      | none =>
        exfalso
        apply hm
        rw [hds2def, List.mem_reverse, List.mem_filter]
        exact ⟨(List.mem_inits q outP).mpr hq, by simp [hc]⟩
      | some e =>
        cases e with
        | dir => rfl
        | file bb =>
          have := hfile5 q hq
          rw [hc] at this
          simp [isFileO] at this
  -- abstract the filesystem after recreating the output root
  obtain ⟨fs6, hfs6⟩ :
      ∃ x, x = FS.mk (ds2.map (fun q => (q, Entry.dir)) ++ fs5.entries) := ⟨_, rfl⟩
  rw [← hfs6] at hmk1
  rw [← hfs6] at hstat6 hallO
  -- the bundle root is a directory
  have hbndl : fs5.stat (t ++ [pn ++ ".saver"]) = some Entry.dir := by
    rw [hstat5]
    rw [if_neg (ne_of_length_ne
      (by simp only [List.length_append, List.length_cons, List.length_nil]; omega))]
    rw [if_neg (fun he => by
      have h2 := (List.append_right_inj t).mp he
      simp only [List.cons.injEq, and_true] at h2
      exact saver_ne_swiftfile pn h2.symm)]
    rw [if_neg (ne_of_length_ne
      (by simp only [List.length_append, List.length_cons, List.length_nil]; omega))]
    rw [if_neg (ne_of_length_ne
      (by simp only [List.length_append, List.length_cons, List.length_nil]; omega))]
    rw [if_neg (ne_of_length_ne
      (by simp only [List.length_append, List.length_cons, List.length_nil]; omega))]
    rw [if_neg (ne_of_length_ne
      (by simp only [List.length_append, List.length_cons, List.length_nil]; omega))]
    rw [if_neg (ne_of_length_ne
      (by simp only [List.length_append, List.length_cons, List.length_nil]; omega))]
    rw [if_pos rfl]
  -- the enumeration of the staged bundle subtree
  have hfs₀notB : ∀ pe ∈ fs₀.entries, ¬ (t ++ [pn ++ ".saver"]) <+: pe.1 := by
    intro pe hpe hpfx
    have hall := List.all_eq_true.mp hft pe hpe
    rw [List.isPrefixOf_iff_prefix.mpr
      (List.IsPrefix.trans (List.prefix_append t [pn ++ ".saver"]) hpfx)] at hall
    simp at hall
  have hE : fs5.entriesUnder (t ++ [pn ++ ".saver"]) =
      [(["Contents", "MacOS", "VideoSaver"], Entry.file bin),
       (["Contents", "Info.plist"], Entry.file (strBytes (infoPlist pn))),
       (["Contents", "Resources", "payload.mp4"], Entry.file inB),
       (["Contents", "Resources"], Entry.dir),
       (["Contents", "MacOS"], Entry.dir),
       (["Contents"], Entry.dir),
       ([], Entry.dir)] := by
    rw [hfs5]
    show List.filterMap _ _ = _
    simp only [stageAEntries, List.cons_append, List.nil_append]
    rw [List.filterMap_cons, relUnder_append (t ++ [pn ++ ".saver"])
      ["Contents", "MacOS", "VideoSaver"] (Entry.file bin)]
    rw [List.filterMap_cons, relUnder_none _ _ (fun hpfx => by
      rw [List.prefix_append_right_inj] at hpfx
      rw [List.cons_prefix_cons] at hpfx
      exact saver_ne_swiftfile pn hpfx.1)]
    rw [List.filterMap_cons,
      show (t ++ [pn ++ ".saver", "Contents", "Info.plist"],
          Entry.file (strBytes (infoPlist pn))) =
        ((t ++ [pn ++ ".saver"]) ++ ["Contents", "Info.plist"],
          Entry.file (strBytes (infoPlist pn))) by simp,
      relUnder_append]
    rw [List.filterMap_cons,
      show (t ++ [pn ++ ".saver", "Contents", "Resources", "payload.mp4"],
          Entry.file inB) =
        ((t ++ [pn ++ ".saver"]) ++ ["Contents", "Resources", "payload.mp4"],
          Entry.file inB) by simp,
      relUnder_append]
    rw [List.filterMap_cons,
      show (t ++ [pn ++ ".saver", "Contents", "Resources"], Entry.dir) =
        ((t ++ [pn ++ ".saver"]) ++ ["Contents", "Resources"], Entry.dir) by simp,
      relUnder_append]
    rw [List.filterMap_cons,
      show (t ++ [pn ++ ".saver", "Contents", "MacOS"], Entry.dir) =
        ((t ++ [pn ++ ".saver"]) ++ ["Contents", "MacOS"], Entry.dir) by simp,
      relUnder_append]
    rw [List.filterMap_cons,
      show (t ++ [pn ++ ".saver", "Contents"], Entry.dir) =
        ((t ++ [pn ++ ".saver"]) ++ ["Contents"], Entry.dir) by simp,
      relUnder_append]
    rw [List.filterMap_cons,
      show (t ++ [pn ++ ".saver"], Entry.dir) =
        ((t ++ [pn ++ ".saver"]) ++ [], Entry.dir) by simp,
      relUnder_append]
    rw [List.filterMap_append]
    rw [filterMap_relUnder_nil _ _ (fun pe hpe => by
      rw [List.mem_map] at hpe
      obtain ⟨q, hq, rfl⟩ := hpe
      exact not_pfx_of_length_lt (by
        have := (hdsp q hq).1.length_le
        simp only [List.length_append, List.length_cons, List.length_nil]
        omega))]
    rw [List.filterMap_cons, relUnder_none _ _ (not_pfx_of_length_lt
      (by simp only [List.length_append, List.length_cons, List.length_nil]; omega))]
    rw [filterMap_relUnder_nil _ _ hfs₀notB]
    rfl
  have hErev : (fs5.entriesUnder (t ++ [pn ++ ".saver"])).reverse =
      [([], Entry.dir),
       (["Contents"], Entry.dir),
       (["Contents", "MacOS"], Entry.dir),
       (["Contents", "Resources"], Entry.dir),
       (["Contents", "Resources", "payload.mp4"], Entry.file inB),
       (["Contents", "Info.plist"], Entry.file (strBytes (infoPlist pn))),
       (["Contents", "MacOS", "VideoSaver"], Entry.file bin)] := by
    rw [hE]
    rfl
  -- step 2: recreate Contents
  have hnew2 : fs6.stat (outP ++ ["Contents"]) = none := by
    rw [hstat6]
    rw [if_neg (hnot_ds2_long _
      (by simp only [List.length_append, List.length_cons, List.length_nil]; omega))]
    exact hstatOutNone ["Contents"]
  have hmk2 := mkdirAll_one_new fs6 outP "Contents" hallO hnew2
  have hallC := hall_extend fs6 outP "Contents" hallO
  obtain ⟨fs7, hfs7⟩ : ∃ x, x = fs6.writeSet (outP ++ ["Contents"]) Entry.dir := ⟨_, rfl⟩
  rw [← hfs7] at hmk2 hallC
  -- step 3: recreate MacOS
  have hnew3 : fs7.stat ((outP ++ ["Contents"]) ++ ["MacOS"]) = none := by
    rw [hfs7, stat_writeSet,
      if_neg (fun he => (append_ne_self_of_ne_nil _ ["MacOS"] (by simp)) he.symm)]
    rw [hstat6, if_neg (hnot_ds2_long _
      (by simp only [List.length_append, List.length_cons, List.length_nil]; omega))]
    rw [List.append_assoc]
    exact hstatOutNone _
  have hmk3c := mkdirAll_one_new fs7 (outP ++ ["Contents"]) "MacOS" hallC hnew3
  have hallM := hall_extend fs7 (outP ++ ["Contents"]) "MacOS" hallC
  obtain ⟨fs8, hfs8⟩ :
      ∃ x, x = fs7.writeSet ((outP ++ ["Contents"]) ++ ["MacOS"]) Entry.dir := ⟨_, rfl⟩
  rw [← hfs8] at hmk3c hallM
  have hmk3 : fs7.mkdirAll (outP ++ ["Contents", "MacOS"]) = Except.ok fs8 := by
    rw [(by simp : outP ++ ["Contents", "MacOS"] = (outP ++ ["Contents"]) ++ ["MacOS"])]
    exact hmk3c
  have hallC8 : ∀ q, q <+: outP ++ ["Contents"] → fs8.stat q = some Entry.dir :=
    fun q hq => hallM q (hq.trans (List.prefix_append _ _))
  -- step 4: recreate Resources
  have hnew4 : fs8.stat ((outP ++ ["Contents"]) ++ ["Resources"]) = none := by
    rw [hfs8, stat_writeSet,
      if_neg (fun he => absurd ((List.append_right_inj _).mp he) (by decide))]
    rw [hfs7, stat_writeSet,
      if_neg (fun he => (append_ne_self_of_ne_nil _ ["Resources"] (by simp)) he.symm)]
    rw [hstat6, if_neg (hnot_ds2_long _
      (by simp only [List.length_append, List.length_cons, List.length_nil]; omega))]
    rw [List.append_assoc]
    exact hstatOutNone _
  have hmk4c := mkdirAll_one_new fs8 (outP ++ ["Contents"]) "Resources" hallC8 hnew4
  have hallR := hall_extend fs8 (outP ++ ["Contents"]) "Resources" hallC8
  obtain ⟨fs9, hfs9⟩ :
      ∃ x, x = fs8.writeSet ((outP ++ ["Contents"]) ++ ["Resources"]) Entry.dir := ⟨_, rfl⟩
  rw [← hfs9] at hmk4c hallR
  have hmk4 : fs8.mkdirAll (outP ++ ["Contents", "Resources"]) = Except.ok fs9 := by
    rw [(by simp : outP ++ ["Contents", "Resources"] = (outP ++ ["Contents"]) ++ ["Resources"])]
    exact hmk4c
  -- step 5: copy the staged media into the output bundle
  have hsrc9 : fs9.stat ((t ++ [pn ++ ".saver"]) ++ ["Contents", "Resources", "payload.mp4"]) =
      some (Entry.file inB) := by
    rw [hfs9, stat_writeSet, if_neg (fun he =>
      hsep ([pn ++ ".saver"] ++ ["Contents", "Resources", "payload.mp4"])
        (["Contents"] ++ ["Resources"])
        (by rw [← List.append_assoc, ← List.append_assoc]; exact he.symm))]
    rw [hfs8, stat_writeSet, if_neg (fun he =>
      hsep ([pn ++ ".saver"] ++ ["Contents", "Resources", "payload.mp4"])
        (["Contents"] ++ ["MacOS"])
        (by rw [← List.append_assoc, ← List.append_assoc]; exact he.symm))]
    rw [hfs7, stat_writeSet, if_neg (fun he =>
      hsep ([pn ++ ".saver"] ++ ["Contents", "Resources", "payload.mp4"]) ["Contents"]
        (by rw [← List.append_assoc]; exact he.symm))]
    rw [hstat6, if_neg (fun hm =>
      hsep2 ([pn ++ ".saver"] ++ ["Contents", "Resources", "payload.mp4"]) _
        (by rw [← List.append_assoc]) (hds2 _ hm).1)]
    rw [hstat5]
    rw [if_neg (fun he => by
      have h2 := (List.append_right_inj t).mp (he.trans
        (by simp : (t ++ [pn ++ ".saver"]) ++ ["Contents", "Resources", "payload.mp4"] =
          t ++ [pn ++ ".saver", "Contents", "Resources", "payload.mp4"]))
      simp at h2)]
    rw [if_neg (ne_of_length_ne
      (by simp only [List.length_append, List.length_cons, List.length_nil]; omega))]
    rw [if_neg (ne_of_length_ne
      (by simp only [List.length_append, List.length_cons, List.length_nil]; omega))]
    rw [if_pos (by simp)]
  have hpaydst : fs9.stat (outP ++ ["Contents", "Resources", "payload.mp4"]) = none := by
    rw [hfs9, stat_writeSet, if_neg (ne_of_length_ne
      (by simp only [List.length_append, List.length_cons, List.length_nil]; omega))]
    rw [hfs8, stat_writeSet, if_neg (ne_of_length_ne
      (by simp only [List.length_append, List.length_cons, List.length_nil]; omega))]
    rw [hfs7, stat_writeSet, if_neg (ne_of_length_ne
      (by simp only [List.length_append, List.length_cons, List.length_nil]; omega))]
    rw [hstat6, if_neg (hnot_ds2_long _
      (by simp only [List.length_append, List.length_cons, List.length_nil]; omega))]
    exact hstatOutNone _
  have hdlpay : (outP ++ ["Contents", "Resources", "payload.mp4"]).dropLast =
      (outP ++ ["Contents"]) ++ ["Resources"] := by
    rw [(by simp : outP ++ ["Contents", "Resources", "payload.mp4"] =
      ((outP ++ ["Contents"]) ++ ["Resources"]) ++ ["payload.mp4"])]
    rw [List.dropLast_concat]
  have hcopy5 := copyFile_existing fs9
    ((t ++ [pn ++ ".saver"]) ++ ["Contents", "Resources", "payload.mp4"])
    (outP ++ ["Contents", "Resources", "payload.mp4"]) inB
    (by simp) hsrc9
    (fun q hq => hallR q (by rw [hdlpay] at hq; exact hq))
    (by rw [hpaydst]; simp)
  obtain ⟨fs10, hfs10⟩ :
      ∃ x, x = fs9.writeSet (outP ++ ["Contents", "Resources", "payload.mp4"])
        (Entry.file inB) := ⟨_, rfl⟩
  rw [← hfs10] at hcopy5
  -- step 6: copy the manifest into the output bundle
  have hsrc10 : fs10.stat ((t ++ [pn ++ ".saver"]) ++ ["Contents", "Info.plist"]) =
      some (Entry.file (strBytes (infoPlist pn))) := by
    rw [hfs10, stat_writeSet, if_neg (fun he =>
      hsep ([pn ++ ".saver"] ++ ["Contents", "Info.plist"])
        ["Contents", "Resources", "payload.mp4"]
        (by rw [← List.append_assoc]; exact he.symm))]
    rw [hfs9, stat_writeSet, if_neg (fun he =>
      hsep ([pn ++ ".saver"] ++ ["Contents", "Info.plist"]) (["Contents"] ++ ["Resources"])
        (by rw [← List.append_assoc, ← List.append_assoc]; exact he.symm))]
    rw [hfs8, stat_writeSet, if_neg (fun he =>
      hsep ([pn ++ ".saver"] ++ ["Contents", "Info.plist"]) (["Contents"] ++ ["MacOS"])
        (by rw [← List.append_assoc, ← List.append_assoc]; exact he.symm))]
    rw [hfs7, stat_writeSet, if_neg (fun he =>
      hsep ([pn ++ ".saver"] ++ ["Contents", "Info.plist"]) ["Contents"]
        (by rw [← List.append_assoc]; exact he.symm))]
    rw [hstat6, if_neg (fun hm =>
      hsep2 ([pn ++ ".saver"] ++ ["Contents", "Info.plist"]) _
        (by rw [← List.append_assoc]) (hds2 _ hm).1)]
    rw [hstat5]
    rw [if_neg (ne_of_length_ne
      (by simp only [List.length_append, List.length_cons, List.length_nil]; omega))]
    rw [if_neg (ne_of_length_ne
      (by simp only [List.length_append, List.length_cons, List.length_nil]; omega))]
    rw [if_pos (by simp)]
  have hpldst : fs10.stat (outP ++ ["Contents", "Info.plist"]) = none := by
    rw [hfs10, stat_writeSet, if_neg (fun he =>
      absurd ((List.append_right_inj outP).mp he) (by decide))]
    rw [hfs9, stat_writeSet, if_neg (fun he => by
      have h2 := (List.append_right_inj outP).mp
        ((by simp : outP ++ ["Contents", "Resources"] =
          (outP ++ ["Contents"]) ++ ["Resources"]).trans he)
      simp at h2)]
    rw [hfs8, stat_writeSet, if_neg (fun he => by
      have h2 := (List.append_right_inj outP).mp
        ((by simp : outP ++ ["Contents", "MacOS"] =
          (outP ++ ["Contents"]) ++ ["MacOS"]).trans he)
      simp at h2)]
    rw [hfs7, stat_writeSet, if_neg (fun he =>
      absurd ((List.append_right_inj outP).mp he) (by decide))]
    rw [hstat6, if_neg (hnot_ds2_long _
      (by simp only [List.length_append, List.length_cons, List.length_nil]; omega))]
    exact hstatOutNone _
  have hdlpl : (outP ++ ["Contents", "Info.plist"]).dropLast = outP ++ ["Contents"] := by
    rw [(by simp : outP ++ ["Contents", "Info.plist"] =
      (outP ++ ["Contents"]) ++ ["Info.plist"])]
    rw [List.dropLast_concat]
  have hallC10 : ∀ q, q <+: outP ++ ["Contents"] → fs10.stat q = some Entry.dir := by
    intro q hq
    rw [hfs10, stat_writeSet, if_neg (fun he => by
      have := hq.length_le
      rw [← he] at this
      simp only [List.length_append, List.length_cons, List.length_nil] at this
      omega)]
    exact hallR q (hq.trans (List.prefix_append _ _))
  have hcopy6 := copyFile_existing fs10
    ((t ++ [pn ++ ".saver"]) ++ ["Contents", "Info.plist"])
    (outP ++ ["Contents", "Info.plist"]) (strBytes (infoPlist pn))
    (by simp) hsrc10
    (fun q hq => hallC10 q (by rw [hdlpl] at hq; exact hq))
    (by rw [hpldst]; simp)
  obtain ⟨fs11, hfs11⟩ :
      ∃ x, x = fs10.writeSet (outP ++ ["Contents", "Info.plist"])
        (Entry.file (strBytes (infoPlist pn))) := ⟨_, rfl⟩
  rw [← hfs11] at hcopy6
  -- step 7: copy the compiled binary into the output bundle
  have hsrc11 : fs11.stat ((t ++ [pn ++ ".saver"]) ++ ["Contents", "MacOS", "VideoSaver"]) =
      some (Entry.file bin) := by
    rw [hfs11, stat_writeSet, if_neg (fun he =>
      hsep ([pn ++ ".saver"] ++ ["Contents", "MacOS", "VideoSaver"]) ["Contents", "Info.plist"]
        (by rw [← List.append_assoc]; exact he.symm))]
    rw [hfs10, stat_writeSet, if_neg (fun he =>
      hsep ([pn ++ ".saver"] ++ ["Contents", "MacOS", "VideoSaver"])
        ["Contents", "Resources", "payload.mp4"]
        (by rw [← List.append_assoc]; exact he.symm))]
    rw [hfs9, stat_writeSet, if_neg (fun he =>
      hsep ([pn ++ ".saver"] ++ ["Contents", "MacOS", "VideoSaver"])
        (["Contents"] ++ ["Resources"])
        (by rw [← List.append_assoc, ← List.append_assoc]; exact he.symm))]
    rw [hfs8, stat_writeSet, if_neg (fun he =>
      hsep ([pn ++ ".saver"] ++ ["Contents", "MacOS", "VideoSaver"])
        (["Contents"] ++ ["MacOS"])
        (by rw [← List.append_assoc, ← List.append_assoc]; exact he.symm))]
    rw [hfs7, stat_writeSet, if_neg (fun he =>
      hsep ([pn ++ ".saver"] ++ ["Contents", "MacOS", "VideoSaver"]) ["Contents"]
        (by rw [← List.append_assoc]; exact he.symm))]
    rw [hstat6, if_neg (fun hm =>
      hsep2 ([pn ++ ".saver"] ++ ["Contents", "MacOS", "VideoSaver"]) _
        (by rw [← List.append_assoc]) (hds2 _ hm).1)]
    rw [hstat5]
    rw [if_pos (by simp)]
  have hexdst : fs11.stat (outP ++ ["Contents", "MacOS", "VideoSaver"]) = none := by
    rw [hfs11, stat_writeSet, if_neg (ne_of_length_ne
      (by simp only [List.length_append, List.length_cons, List.length_nil]; omega))]
    rw [hfs10, stat_writeSet, if_neg (fun he =>
      absurd ((List.append_right_inj outP).mp he) (by decide))]
    rw [hfs9, stat_writeSet, if_neg (ne_of_length_ne
      (by simp only [List.length_append, List.length_cons, List.length_nil]; omega))]
    rw [hfs8, stat_writeSet, if_neg (ne_of_length_ne
      (by simp only [List.length_append, List.length_cons, List.length_nil]; omega))]
    rw [hfs7, stat_writeSet, if_neg (ne_of_length_ne
      (by simp only [List.length_append, List.length_cons, List.length_nil]; omega))]
    rw [hstat6, if_neg (hnot_ds2_long _
      (by simp only [List.length_append, List.length_cons, List.length_nil]; omega))]
    exact hstatOutNone _
  have hdlex : (outP ++ ["Contents", "MacOS", "VideoSaver"]).dropLast =
      (outP ++ ["Contents"]) ++ ["MacOS"] := by
    rw [(by simp : outP ++ ["Contents", "MacOS", "VideoSaver"] =
      ((outP ++ ["Contents"]) ++ ["MacOS"]) ++ ["VideoSaver"])]
    rw [List.dropLast_concat]
  have hallM9 : ∀ q, q <+: (outP ++ ["Contents"]) ++ ["MacOS"] →
      fs9.stat q = some Entry.dir := by
    intro q hq
    rw [hfs9]
    refine hall_preserve2 fs8 _ _ Entry.dir hallM ?_ q hq
    intro hp
    have h2 := (List.cons_prefix_cons.mp ((List.prefix_append_right_inj _).mp hp)).1
    exact absurd h2 (by decide)
  have hallM10 : ∀ q, q <+: (outP ++ ["Contents"]) ++ ["MacOS"] →
      fs10.stat q = some Entry.dir := by
    intro q hq
    rw [hfs10]
    refine hall_preserve2 fs9 _ _ (Entry.file inB) hallM9 ?_ q hq
    exact not_pfx_of_length_lt
      (by simp only [List.length_append, List.length_cons, List.length_nil]; omega)
  have hallM11 : ∀ q, q <+: (outP ++ ["Contents"]) ++ ["MacOS"] →
      fs11.stat q = some Entry.dir := by
    intro q hq
    rw [hfs11]
    refine hall_preserve2 fs10 _ _ (Entry.file (strBytes (infoPlist pn))) hallM10 ?_ q hq
    intro hp
    have he := hp.eq_of_length
      (by simp only [List.length_append, List.length_cons, List.length_nil])
    have h2 := (List.append_right_inj outP).mp (he.trans
      (by simp : (outP ++ ["Contents"]) ++ ["MacOS"] = outP ++ ["Contents", "MacOS"]))
    simp at h2
  have hcopy7 := copyFile_existing fs11
    ((t ++ [pn ++ ".saver"]) ++ ["Contents", "MacOS", "VideoSaver"])
    (outP ++ ["Contents", "MacOS", "VideoSaver"]) bin
    (by simp) hsrc11
    (fun q hq => hallM11 q (by rw [hdlex] at hq; exact hq))
    (by rw [hexdst]; simp)
  obtain ⟨fsF, hfsF⟩ :
      ∃ x, x = fs11.writeSet (outP ++ ["Contents", "MacOS", "VideoSaver"])
        (Entry.file bin) := ⟨_, rfl⟩
  rw [← hfsF] at hcopy7
  refine ⟨fsF, ?_, ?_⟩
  · -- the promotion succeeds and produces fsF
    show FS.copyTree _ _ _ = _
    simp only [FS.copyTree, hbndl, hErev, FS.copyList, List.append_nil,
      hmk1, hmk2, hmk3, hmk4, hcopy5, hcopy6, hcopy7]
  · -- the output subtree is exactly the bundle layout
    intro r
    by_cases h1 : r = ["Contents", "MacOS", "VideoSaver"]
    · subst h1
      rw [hfsF, stat_writeSet, if_pos rfl]
      simp [bundleStat]
    by_cases h2 : r = ["Contents", "Info.plist"]
    · subst h2
      rw [hfsF, stat_writeSet, if_neg (fun he =>
        absurd ((List.append_right_inj outP).mp he) (by decide))]
      rw [hfs11, stat_writeSet, if_pos rfl]
      simp [bundleStat]
    by_cases h3 : r = ["Contents", "Resources", "payload.mp4"]
    · subst h3
      rw [hfsF, stat_writeSet, if_neg (fun he =>
        absurd ((List.append_right_inj outP).mp he) (by decide))]
      rw [hfs11, stat_writeSet, if_neg (fun he =>
        absurd ((List.append_right_inj outP).mp he) (by decide))]
      rw [hfs10, stat_writeSet, if_pos rfl]
      simp [bundleStat]
    by_cases h4 : r = ["Contents", "Resources"]
    · subst h4
      rw [hfsF, stat_writeSet, if_neg (fun he =>
        absurd ((List.append_right_inj outP).mp he) (by decide))]
      rw [hfs11, stat_writeSet, if_neg (fun he =>
        absurd ((List.append_right_inj outP).mp he) (by decide))]
      rw [hfs10, stat_writeSet, if_neg (fun he =>
        absurd ((List.append_right_inj outP).mp he) (by decide))]
      rw [hfs9, stat_writeSet, if_pos (by simp)]
      simp [bundleStat]
    by_cases h5 : r = ["Contents", "MacOS"]
    · subst h5
      rw [hfsF, stat_writeSet, if_neg (fun he =>
        absurd ((List.append_right_inj outP).mp he) (by decide))]
      rw [hfs11, stat_writeSet, if_neg (fun he =>
        absurd ((List.append_right_inj outP).mp he) (by decide))]
      rw [hfs10, stat_writeSet, if_neg (fun he =>
        absurd ((List.append_right_inj outP).mp he) (by decide))]
      rw [hfs9, stat_writeSet, if_neg (fun he => by
        have h2 := (List.append_right_inj outP).mp
          ((by simp : outP ++ ["Contents", "Resources"] =
            (outP ++ ["Contents"]) ++ ["Resources"]).trans he)
        simp at h2)]
      rw [hfs8, stat_writeSet, if_pos (by simp)]
      simp [bundleStat]
    by_cases h6 : r = ["Contents"]
    · subst h6
      rw [hfsF, stat_writeSet, if_neg (fun he =>
        absurd ((List.append_right_inj outP).mp he) (by decide))]
      rw [hfs11, stat_writeSet, if_neg (fun he =>
        absurd ((List.append_right_inj outP).mp he) (by decide))]
      rw [hfs10, stat_writeSet, if_neg (fun he =>
        absurd ((List.append_right_inj outP).mp he) (by decide))]
      rw [hfs9, stat_writeSet, if_neg (fun he => by
        have h2 := (List.append_right_inj outP).mp
          ((by simp : outP ++ ["Contents", "Resources"] =
            (outP ++ ["Contents"]) ++ ["Resources"]).trans he)
        simp at h2)]
      rw [hfs8, stat_writeSet, if_neg (fun he => by
        have h2 := (List.append_right_inj outP).mp
          ((by simp : outP ++ ["Contents", "MacOS"] =
            (outP ++ ["Contents"]) ++ ["MacOS"]).trans he)
        simp at h2)]
      rw [hfs7, stat_writeSet, if_pos rfl]
      simp [bundleStat]
    by_cases h7 : r = []
    · subst h7
      rw [hfsF, stat_writeSet, if_neg (fun he =>
        absurd ((List.append_right_inj outP).mp he) (by decide))]
      rw [hfs11, stat_writeSet, if_neg (fun he =>
        absurd ((List.append_right_inj outP).mp he) (by decide))]
      rw [hfs10, stat_writeSet, if_neg (fun he =>
        absurd ((List.append_right_inj outP).mp he) (by decide))]
      rw [hfs9, stat_writeSet, if_neg (fun he => by
        have h2 := (List.append_right_inj outP).mp
          ((by simp : outP ++ ["Contents", "Resources"] =
            (outP ++ ["Contents"]) ++ ["Resources"]).trans he)
        simp at h2)]
      rw [hfs8, stat_writeSet, if_neg (fun he => by
        have h2 := (List.append_right_inj outP).mp
          ((by simp : outP ++ ["Contents", "MacOS"] =
            (outP ++ ["Contents"]) ++ ["MacOS"]).trans he)
        simp at h2)]
      rw [hfs7, stat_writeSet, if_neg (fun he =>
        absurd ((List.append_right_inj outP).mp he) (by decide))]
      rw [List.append_nil, hstat6, if_pos houtds2]
      simp [bundleStat]
    · rw [hfsF, stat_writeSet, if_neg (fun he =>
        h1 ((List.append_right_inj outP).mp he).symm)]
      rw [hfs11, stat_writeSet, if_neg (fun he =>
        h2 ((List.append_right_inj outP).mp he).symm)]
      rw [hfs10, stat_writeSet, if_neg (fun he =>
        h3 ((List.append_right_inj outP).mp he).symm)]
      rw [hfs9, stat_writeSet, if_neg (fun he =>
        h4 ((List.append_right_inj outP).mp
          ((by simp : outP ++ ["Contents", "Resources"] =
            (outP ++ ["Contents"]) ++ ["Resources"]).trans he)).symm)]
      rw [hfs8, stat_writeSet, if_neg (fun he =>
        h5 ((List.append_right_inj outP).mp
          ((by simp : outP ++ ["Contents", "MacOS"] =
            (outP ++ ["Contents"]) ++ ["MacOS"]).trans he)).symm)]
      rw [hfs7, stat_writeSet, if_neg (fun he =>
        h6 ((List.append_right_inj outP).mp he).symm)]
      rw [hstat6, if_neg (fun hm => h7 (List.length_eq_zero.mp (by
        have := (hds2 _ hm).1.length_le
        simp only [List.length_append] at this
        omega)))]
      rw [hstatOutNone r]
      simp [bundleStat, h1, h2, h3, h4, h5, h6, h7]

theorem buildMacSaverSwift_ok (env : Env) (inPath outP t : Path) (name : String)
    (fs₀ : FS) (inB bin : Bytes)
    (htmp : env.tempDir = some t)
    (hres : env.swiftcRes = CompilerRes.ok (some bin))
    (hin : fs₀.stat inPath = some (Entry.file inB))
    (hft : freshUnder fs₀ t = true)
    (hnt : noFileAlong fs₀ t = true)
    (hfo : freshUnder fs₀ outP = true)
    (hno : noFileAlong fs₀ outP = true)
    (hto : t.isPrefixOf outP = false)
    (hot : outP.isPrefixOf t = false) :
    ∃ fsF : FS,
      buildMacSaverSwift env inPath outP name ⟨fs₀, [], []⟩ =
        ({ fs := fsF,
           trace := [⟨t, "swiftc", swiftcArgs (pathToString
             ((t ++ [sanitizeName name ++ ".saver"]) ++ ["Contents", "MacOS", "VideoSaver"]))⟩],
           warnings := if env.chmodOk then [] else [chmodWarnMsg] }, Except.ok ()) ∧
      ∀ r, fsF.stat (outP ++ r) =
        bundleStat (strBytes (infoPlist (sanitizeName name))) bin inB r := by
  have hto2 : ¬ t <+: outP := fun h => by
    rw [List.isPrefixOf_iff_prefix.mpr h] at hto
    exact Bool.noConfusion hto
  have hot2 : ¬ outP <+: t := fun h => by
    rw [List.isPrefixOf_iff_prefix.mpr h] at hot
    exact Bool.noConfusion hot
  obtain ⟨dsp, hdsp, hstage⟩ := swiftStageA_ok inPath t (sanitizeName name) fs₀ inB hin hft hnt
  obtain ⟨fsF, hprom, hstatF⟩ :=
    promote_ok t outP (sanitizeName name) fs₀ inB bin dsp hdsp hft hfo hno hto2 hot2
  have hexstat : ((FS.mk (stageAEntries t (sanitizeName name) inB ++
      (dsp.map (fun q => (q, Entry.dir)) ++ (t, Entry.dir) :: fs₀.entries))).writeSet
      ((t ++ [sanitizeName name ++ ".saver"]) ++ ["Contents", "MacOS", "VideoSaver"])
      (Entry.file bin)).stat
      ((t ++ [sanitizeName name ++ ".saver"]) ++ ["Contents", "MacOS", "VideoSaver"]) =
      some (Entry.file bin) := by
    rw [stat_writeSet, if_pos rfl]
  have hprom2 : ((FS.mk (stageAEntries t (sanitizeName name) inB ++
      (dsp.map (fun q => (q, Entry.dir)) ++ (t, Entry.dir) :: fs₀.entries))).writeSet
      ((t ++ [sanitizeName name ++ ".saver"]) ++ ["Contents", "MacOS", "VideoSaver"])
      (Entry.file bin)).copyTree (t ++ [sanitizeName name ++ ".saver"]) outP =
      Except.ok fsF := hprom
  refine ⟨fsF, ?_, hstatF⟩
  simp only [buildMacSaverSwift, htmp, hstage, hres, List.nil_append, hexstat, hprom2]
  cases hch : env.chmodOk with
  | true => rfl
  | false => rfl

/-- Stage A of the project-based strategy on a fresh workspace: the three
template writes always succeed, reaching a filesystem `fs3` whose contents are
fully characterised; the stage then reduces to the copy of the media asset. -/
theorem xcodeScaffold_ok (t : Path) (pn : String) (fs₀ : FS)
    (hft : freshUnder fs₀ t = true)
    (hnt : noFileAlong fs₀ t = true) :
    ∃ dsp : List Path, ∃ fs3 : FS,
      (∀ q ∈ dsp, q <+: t ∧ t ≠ q ∧ fs₀.stat q = none) ∧
      (∀ inPath, xcodeStageA inPath t pn (fs₀.writeSet t Entry.dir) =
        (match fs3.copyFile inPath (t ++ ["VideoSaver", "payload.mp4"]) with
         | Except.error e => (fs3, some e)
         | Except.ok fs4 => (fs4, none))) ∧
      (∀ q, fs3.stat q =
        if t ++ ["VideoSaver", "Info.plist"] = q then
          some (Entry.file (strBytes (infoPlist pn)))
        else if t ++ ["VideoSaver", "VideoSaver.swift"] = q then
          some (Entry.file (strBytes (swiftSaverClass pn)))
        else if t ++ ["VideoSaver"] = q then some Entry.dir
        else if t ++ ["VideoSaver.xcodeproj", "project.pbxproj"] = q then
          some (Entry.file (strBytes (xcodeprojPbxproj pn)))
        else if t ++ ["VideoSaver.xcodeproj"] = q then some Entry.dir
        else if q ∈ dsp then some Entry.dir
        else if t = q then some Entry.dir
        else fs₀.stat q) ∧
      (∀ q, q <+: t ++ ["VideoSaver"] → fs3.stat q = some Entry.dir) := by
  have hfresh : ∀ r, fs₀.stat (t ++ r) = none := stat_none_of_fresh fs₀ t hft
  obtain ⟨dsp, hdsp, hmk1, hstat1, hall1⟩ :=
    mkdir_child_ok t "VideoSaver.xcodeproj" fs₀ hft hnt
  have hnot_dsp_long : ∀ q : Path, t.length < q.length → q ∉ dsp := by
    intro q hlen hq
    have := (hdsp q hq).1.length_le
    omega
  obtain ⟨fsA, hfsA⟩ : ∃ x, x = FS.mk ((t ++ ["VideoSaver.xcodeproj"], Entry.dir) ::
      (dsp.map (fun q => (q, Entry.dir)) ++ (fs₀.writeSet t Entry.dir).entries)) := ⟨_, rfl⟩
  rw [← hfsA] at hmk1 hstat1 hall1
  -- first template write: the project manifest
  have hdl1 : (t ++ ["VideoSaver.xcodeproj", "project.pbxproj"]).dropLast =
      t ++ ["VideoSaver.xcodeproj"] := by
    rw [(by simp : t ++ ["VideoSaver.xcodeproj", "project.pbxproj"] =
      (t ++ ["VideoSaver.xcodeproj"]) ++ ["project.pbxproj"]), List.dropLast_concat]
  have hstatP1 : fsA.stat (t ++ ["VideoSaver.xcodeproj", "project.pbxproj"]) = none := by
    rw [hstat1]
    rw [if_neg (ne_of_length_ne
      (by simp only [List.length_append, List.length_cons, List.length_nil]; omega))]
    rw [if_neg (fun hm => hnot_dsp_long _
      (by simp only [List.length_append, List.length_cons, List.length_nil]; omega) hm)]
    rw [if_neg (ne_of_length_ne
      (by simp only [List.length_append, List.length_cons, List.length_nil]; omega))]
    exact hfresh _
  have hwf1 := writeFile_spec fsA (t ++ ["VideoSaver.xcodeproj", "project.pbxproj"])
    (strBytes (xcodeprojPbxproj pn))
    (by rw [hdl1, hstat1, if_pos rfl])
    (by rw [hstatP1]; simp)
  obtain ⟨fs1, hfs1⟩ : ∃ x, x = FS.mk ((t ++ ["VideoSaver.xcodeproj", "project.pbxproj"],
      Entry.file (strBytes (xcodeprojPbxproj pn))) :: fsA.entries) := ⟨_, rfl⟩
  rw [← hfs1] at hwf1
  have hwu1 : writeUnder (fs₀.writeSet t Entry.dir)
      (t ++ ["VideoSaver.xcodeproj", "project.pbxproj"]) (strBytes (xcodeprojPbxproj pn)) =
      Except.ok fs1 := by
    simp only [writeUnder, hdl1, hmk1, hwf1]
  have hstatf1 : ∀ q, fs1.stat q =
      if t ++ ["VideoSaver.xcodeproj", "project.pbxproj"] = q then
        some (Entry.file (strBytes (xcodeprojPbxproj pn)))
      else fsA.stat q := by
    intro q
    rw [hfs1]
    rfl
  -- second template write: the component source
  have hallT : ∀ q, q <+: t → fs1.stat q = some Entry.dir := by
    intro q hq
    rw [hstatf1, if_neg (ne_of_length_ne (by
      have h3 := hq.length_le
      simp only [List.length_append, List.length_cons, List.length_nil]
      omega))]
    exact hall1 q (hq.trans (List.prefix_append t _))
  have hnewV : fs1.stat (t ++ ["VideoSaver"]) = none := by
    rw [hstatf1]
    rw [if_neg (ne_of_length_ne
      (by simp only [List.length_append, List.length_cons, List.length_nil]; omega))]
    rw [hstat1]
    rw [if_neg (fun he => absurd ((List.append_right_inj _).mp he) (by decide))]
    rw [if_neg (fun hm => hnot_dsp_long _
      (by simp only [List.length_append, List.length_cons, List.length_nil]; omega) hm)]
    rw [if_neg (fun he => (append_ne_self_of_ne_nil t ["VideoSaver"] (by simp)) he.symm)]
    exact hfresh _
  have hmkV := mkdirAll_one_new fs1 t "VideoSaver" hallT hnewV
  have hdl2 : (t ++ ["VideoSaver", "VideoSaver.swift"]).dropLast = t ++ ["VideoSaver"] := by
    rw [(by simp : t ++ ["VideoSaver", "VideoSaver.swift"] =
      (t ++ ["VideoSaver"]) ++ ["VideoSaver.swift"]), List.dropLast_concat]
  have hstatP2 : (fs1.writeSet (t ++ ["VideoSaver"]) Entry.dir).stat
      (t ++ ["VideoSaver", "VideoSaver.swift"]) = none := by
    rw [stat_writeSet]
    rw [if_neg (ne_of_length_ne
      (by simp only [List.length_append, List.length_cons, List.length_nil]; omega))]
    rw [hstatf1]
    rw [if_neg (fun he => absurd ((List.append_right_inj _).mp he) (by decide))]
    rw [hstat1]
    rw [if_neg (ne_of_length_ne
      (by simp only [List.length_append, List.length_cons, List.length_nil]; omega))]
    rw [if_neg (fun hm => hnot_dsp_long _
      (by simp only [List.length_append, List.length_cons, List.length_nil]; omega) hm)]
    rw [if_neg (ne_of_length_ne
      (by simp only [List.length_append, List.length_cons, List.length_nil]; omega))]
    exact hfresh _
  have hwf2 := writeFile_spec (fs1.writeSet (t ++ ["VideoSaver"]) Entry.dir)
    (t ++ ["VideoSaver", "VideoSaver.swift"]) (strBytes (swiftSaverClass pn))
    (by rw [hdl2, stat_writeSet, if_pos rfl])
    (by rw [hstatP2]; simp)
  obtain ⟨fs2, hfs2⟩ : ∃ x, x = FS.mk ((t ++ ["VideoSaver", "VideoSaver.swift"],
      Entry.file (strBytes (swiftSaverClass pn))) ::
      (fs1.writeSet (t ++ ["VideoSaver"]) Entry.dir).entries) := ⟨_, rfl⟩
  rw [← hfs2] at hwf2
  have hwu2 : writeUnder fs1 (t ++ ["VideoSaver", "VideoSaver.swift"])
      (strBytes (swiftSaverClass pn)) = Except.ok fs2 := by
    simp only [writeUnder, hdl2, hmkV, hwf2]
  have hstatf2 : ∀ q, fs2.stat q =
      if t ++ ["VideoSaver", "VideoSaver.swift"] = q then
        some (Entry.file (strBytes (swiftSaverClass pn)))
      else if t ++ ["VideoSaver"] = q then some Entry.dir
      else fs1.stat q := by
    intro q
    rw [hfs2]
    rfl
  -- third template write: the manifest
  have hallV2 : ∀ q, q <+: t ++ ["VideoSaver"] → fs2.stat q = some Entry.dir := by
    intro q hq
    have hql : q.length ≤ t.length + 1 := by
      have h3 := hq.length_le
      simp only [List.length_append, List.length_cons, List.length_nil] at h3
      omega
    rw [hstatf2]
    rw [if_neg (ne_of_length_ne
      (by simp only [List.length_append, List.length_cons, List.length_nil]; omega))]
    by_cases h2 : t ++ ["VideoSaver"] = q
    · rw [if_pos h2]
    · rw [if_neg h2]
      rcases List.prefix_concat_iff.mp hq with h3 | h4
      · exact absurd h3.symm h2
      · exact hallT q h4
  have hmkNoop := mkdirAll_noop fs2 (t ++ ["VideoSaver"]) hallV2
  have hdl3 : (t ++ ["VideoSaver", "Info.plist"]).dropLast = t ++ ["VideoSaver"] := by
    rw [(by simp : t ++ ["VideoSaver", "Info.plist"] =
      (t ++ ["VideoSaver"]) ++ ["Info.plist"]), List.dropLast_concat]
  have hstatP3 : fs2.stat (t ++ ["VideoSaver", "Info.plist"]) = none := by
    rw [hstatf2]
    rw [if_neg (fun he => absurd ((List.append_right_inj _).mp he) (by decide))]
    rw [if_neg (ne_of_length_ne
      (by simp only [List.length_append, List.length_cons, List.length_nil]; omega))]
    rw [hstatf1]
    rw [if_neg (fun he => absurd ((List.append_right_inj _).mp he) (by decide))]
    rw [hstat1]
    rw [if_neg (ne_of_length_ne
      (by simp only [List.length_append, List.length_cons, List.length_nil]; omega))]
    rw [if_neg (fun hm => hnot_dsp_long _
      (by simp only [List.length_append, List.length_cons, List.length_nil]; omega) hm)]
    rw [if_neg (ne_of_length_ne
      (by simp only [List.length_append, List.length_cons, List.length_nil]; omega))]
    exact hfresh _
  have hwf3 := writeFile_spec fs2 (t ++ ["VideoSaver", "Info.plist"])
    (strBytes (infoPlist pn))
    (by rw [hdl3, hstatf2, if_neg (ne_of_length_ne
      (by simp only [List.length_append, List.length_cons, List.length_nil]; omega)),
      if_pos rfl])
    (by rw [hstatP3]; simp)
  obtain ⟨fs3, hfs3⟩ : ∃ x, x = FS.mk ((t ++ ["VideoSaver", "Info.plist"],
      Entry.file (strBytes (infoPlist pn))) :: fs2.entries) := ⟨_, rfl⟩
  rw [← hfs3] at hwf3
  have hwu3 : writeUnder fs2 (t ++ ["VideoSaver", "Info.plist"]) (strBytes (infoPlist pn)) =
      Except.ok fs3 := by
    simp only [writeUnder, hdl3, hmkNoop, hwf3]
  have hstatf3 : ∀ q, fs3.stat q =
      if t ++ ["VideoSaver", "Info.plist"] = q then
        some (Entry.file (strBytes (infoPlist pn)))
      else fs2.stat q := by
    intro q
    rw [hfs3]
    rfl
  refine ⟨dsp, fs3, hdsp, ?_, ?_, ?_⟩
  · intro inPath
    cases hc : fs3.copyFile inPath (t ++ ["VideoSaver", "payload.mp4"]) with
    | error e => simp only [xcodeStageA, hwu1, hwu2, hwu3, hc]
    | ok fs4 => simp only [xcodeStageA, hwu1, hwu2, hwu3, hc]
  · intro q
    rw [hstatf3, hstatf2, hstatf1, hstat1]
  · intro q hq
    have hql : q.length ≤ t.length + 1 := by
      have h3 := hq.length_le
      simp only [List.length_append, List.length_cons, List.length_nil] at h3
      omega
    rw [hstatf3, if_neg (ne_of_length_ne
      (by simp only [List.length_append, List.length_cons, List.length_nil]; omega))]
    exact hallV2 q hq

/-- After a successful stage A of the direct-compiler pipeline the expected
binary path inside the staged bundle does not exist yet: only the compiler can
create it. -/
theorem stageA_exec_missing (t : Path) (pn : String) (fs₀ : FS) (inB : Bytes)
    (dsp : List Path)
    (hdsp : ∀ q ∈ dsp, q <+: t ∧ t ≠ q ∧ fs₀.stat q = none)
    (hft : freshUnder fs₀ t = true) :
    (FS.mk (stageAEntries t pn inB ++
      (dsp.map (fun q => (q, Entry.dir)) ++ (t, Entry.dir) :: fs₀.entries))).stat
      ((t ++ [pn ++ ".saver"]) ++ ["Contents", "MacOS", "VideoSaver"]) = none := by
  have hfresh : ∀ r, fs₀.stat (t ++ r) = none := stat_none_of_fresh fs₀ t hft
  rw [(by simp : (t ++ [pn ++ ".saver"]) ++ ["Contents", "MacOS", "VideoSaver"] =
    t ++ [pn ++ ".saver", "Contents", "MacOS", "VideoSaver"])]
  show statList _ _ = _
  simp only [stageAEntries, List.cons_append, List.nil_append]
  rw [statList_cons, if_neg (ne_of_length_ne
    (by simp only [List.length_append, List.length_cons, List.length_nil]; omega))]
  rw [statList_cons, if_neg (ne_of_length_ne
    (by simp only [List.length_append, List.length_cons, List.length_nil]; omega))]
  rw [statList_cons, if_neg (fun he => by
    have h2 := (List.append_right_inj _).mp he
    simp at h2)]
  rw [statList_cons, if_neg (ne_of_length_ne
    (by simp only [List.length_append, List.length_cons, List.length_nil]; omega))]
  rw [statList_cons, if_neg (ne_of_length_ne
    (by simp only [List.length_append, List.length_cons, List.length_nil]; omega))]
  rw [statList_cons, if_neg (ne_of_length_ne
    (by simp only [List.length_append, List.length_cons, List.length_nil]; omega))]
  rw [statList_cons, if_neg (ne_of_length_ne
    (by simp only [List.length_append, List.length_cons, List.length_nil]; omega))]
  rw [statList_dirs, if_neg (fun hm => by
    have h3 := (hdsp _ hm).1.length_le
    simp only [List.length_append, List.length_cons, List.length_nil] at h3
    omega)]
  rw [statList_cons, if_neg (ne_of_length_ne
    (by simp only [List.length_append, List.length_cons, List.length_nil]; omega))]
  exact hfresh _

/-! ## Helper lemmas -/

theorem goTrimSpace_blank (s : String) (h : s.data.all goIsSpace = true) :
    goTrimSpace s = "" := by
  have hd : s.data.dropWhile goIsSpace = [] := by
    rw [List.dropWhile_eq_nil_iff]
    intro x hx
    exact List.all_eq_true.mp h x hx
  unfold goTrimSpace
  rw [hd]
  rfl

theorem sanitizeName_blank (s : String) (h : s.data.all goIsSpace = true) :
    sanitizeName s = "Screensaver" := by
  simp [sanitizeName, goTrimSpace_blank s h]

/-! ## Claim theorems -/

/-- C9: the component-source template renderer does not depend on the display
name: for every pair of display names, the rendered playback-component source
text is identical (the parameter is accepted in the signature of
`swiftSaverClass` but never substituted into the output). -/
theorem c9_component_source_ignores_name (a b : String) :
    swiftSaverClass a = swiftSaverClass b := rfl

set_option maxRecDepth 100000 in
/-- C3: for the display name `"My Video"`, the generated manifest's
bundle-identifier element contains the string `"myvideo"`, and that identifier
core is exactly the display name lower-cased with its spaces removed. -/
theorem c3_identifier_myvideo :
    goToLower (goRemoveSpaces "My Video") = "myvideo" ∧
    ("<key>CFBundleIdentifier</key>\n    <string>com.example.myvideo</string>").data <:+:
      (infoPlist "My Video").data := by
  constructor
  · decide
  · decide

set_option maxRecDepth 100000 in
/-- C4: for every display name that is empty or consists only of whitespace,
the pipeline uses the fixed default name `"Screensaver"`: the sanitized name
is the default, the manifest's display-name element carries the default, and
the bundle identifier is derived from the default. -/
theorem c4_blank_name_defaults (s : String) (h : s.data.all goIsSpace = true) :
    sanitizeName s = "Screensaver" ∧
    ("<key>CFBundleName</key>\n    <string>Screensaver</string>").data <:+:
      (infoPlist (sanitizeName s)).data ∧
    ("<key>CFBundleIdentifier</key>\n    <string>com.example.screensaver</string>").data <:+:
      (infoPlist (sanitizeName s)).data := by
  have h1 := sanitizeName_blank s h
  refine ⟨h1, ?_, ?_⟩ <;> rw [h1] <;> decide

set_option maxRecDepth 100000 in
theorem c4_blank_name_defaults_witness :
    ("  ".data.all goIsSpace = true) ∧ sanitizeName "  " = "Screensaver" :=
  ⟨by decide, (c4_blank_name_defaults "  " (by decide)).1⟩

/-- C5: the build-strategy selector probes `swiftc` first and `xcodebuild`
second, selecting the first available strategy; when neither is available it
fails with the no-toolchain error carrying the remediation hint, and the
state (in particular the filesystem) is returned unchanged — no scaffolding
has been created. -/
theorem c5_strategy_selection (env : Env) (inPath outPath : Path) (name : String) (st : St) :
    (env.swiftcAvailable = true →
      buildMacSaver env inPath outPath name st = buildMacSaverSwift env inPath outPath name st) ∧
    (env.swiftcAvailable = false → env.xcodebuildAvailable = true →
      buildMacSaver env inPath outPath name st = buildMacSaverXcode env inPath outPath name st) ∧
    (env.swiftcAvailable = false → env.xcodebuildAvailable = false →
      buildMacSaver env inPath outPath name st =
        (st, Except.error (Err.noToolchain noToolchainHint))) := by
  refine ⟨?_, ?_, ?_⟩
  · intro h1
    simp [buildMacSaver, h1]
  · intro h1 h2
    simp [buildMacSaver, h1, h2]
  · intro h1 h2
    simp [buildMacSaver, h1, h2]

theorem c5_strategy_selection_witness :
    buildMacSaver ⟨false, false, none, CompilerRes.fail, XcodeRes.fail, true⟩
        ["in.mp4"] ["Out.saver"] "N" ⟨⟨[]⟩, [], []⟩ =
      (⟨⟨[]⟩, [], []⟩, Except.error (Err.noToolchain noToolchainHint)) :=
  (c5_strategy_selection ⟨false, false, none, CompilerRes.fail, XcodeRes.fail, true⟩
    ["in.mp4"] ["Out.saver"] "N" ⟨⟨[]⟩, [], []⟩).2.2 rfl rfl

set_option maxRecDepth 100000 in
/-- C10: the manifest renderer embeds the (sanitized) display name verbatim
into the manifest text with no XML escaping: for every display name the text
of `infoPlist name` contains, directly inside the `CFBundleName` element, the
name itself unchanged — so any XML-special character of the name appears
unescaped there. -/
theorem c10_name_unescaped_in_manifest (name : String) :
    ∃ pre post,
      infoPlist name =
        pre ++ ("<key>CFBundleName</key>\n    <string>" ++ name ++ "</string>") ++ post := by
  refine ⟨plistA ++ goToLower (goRemoveSpaces name) ++
    "</string>\n    <key>CFBundleInfoDictionaryVersion</key>\n    <string>6.0</string>\n    ",
    "\n    <key>CFBundlePackageType</key>\n    <string>BNDL</string>\n    <key>CFBundleShortVersionString</key>\n    <string>1.0</string>\n    <key>CFBundleVersion</key>\n    <string>1</string>\n    <key>NSPrincipalClass</key>\n    <string>VideoSaverView</string>\n</dict>\n</plist>\n", ?_⟩
  have h1 : "</string>\n    <key>CFBundleInfoDictionaryVersion</key>\n    <string>6.0</string>\n    " ++ "<key>CFBundleName</key>\n    <string>" = plistB := rfl
  have h2 : ("</string>" : String) ++ "\n    <key>CFBundlePackageType</key>\n    <string>BNDL</string>\n    <key>CFBundleShortVersionString</key>\n    <string>1.0</string>\n    <key>CFBundleVersion</key>\n    <string>1</string>\n    <key>NSPrincipalClass</key>\n    <string>VideoSaverView</string>\n</dict>\n</plist>\n" = plistC := rfl
  rw [infoPlist, ← h1, ← h2]
  apply String.ext
  simp [String.data_append, List.append_assoc]

/-- C1: for every valid input — an existing regular input media file, a
fresh writable output path, a fresh scratch workspace and an arbitrary
display name — a successful run of the direct-compiler pipeline produces at
the output path a bundle tree containing exactly one manifest file at
`Contents/Info.plist`, one compiled-binary file at
`Contents/MacOS/VideoSaver`, and one copy of the input media at
`Contents/Resources/payload.mp4` whose bytes are identical to the input
file's bytes — and nothing else under the output path. -/
theorem c1_success_bundle_layout (env : Env) (inPath outP t : Path) (name : String)
    (fs₀ : FS) (inB bin : Bytes)
    (htmp : env.tempDir = some t)
    (hres : env.swiftcRes = CompilerRes.ok (some bin))
    (hin : fs₀.stat inPath = some (Entry.file inB))
    (hft : freshUnder fs₀ t = true)
    (hnt : noFileAlong fs₀ t = true)
    (hfo : freshUnder fs₀ outP = true)
    (hno : noFileAlong fs₀ outP = true)
    (hto : t.isPrefixOf outP = false)
    (hot : outP.isPrefixOf t = false) :
    ∃ st : St,
      buildMacSaverSwift env inPath outP name ⟨fs₀, [], []⟩ = (st, Except.ok ()) ∧
      ∀ r, st.fs.stat (outP ++ r) =
        bundleStat (strBytes (infoPlist (sanitizeName name))) bin inB r := by
  obtain ⟨fsF, heq, hstat⟩ :=
    buildMacSaverSwift_ok env inPath outP t name fs₀ inB bin htmp hres hin hft hnt hfo hno hto hot
  exact ⟨_, heq, hstat⟩

theorem c1_success_bundle_layout_witness :
    (freshUnder (FS.mk [(["in.mp4"], Entry.file [1, 2, 3])]) ["tmp", "w"] = true) ∧
    ((FS.mk [(["in.mp4"], Entry.file [1, 2, 3])]).stat ["in.mp4"] =
      some (Entry.file [1, 2, 3])) ∧
    ∃ st : St,
      buildMacSaverSwift ⟨true, false, some ["tmp", "w"], CompilerRes.ok (some [9, 9]),
          XcodeRes.fail, true⟩ ["in.mp4"] ["Out.saver"] "My Video"
          ⟨FS.mk [(["in.mp4"], Entry.file [1, 2, 3])], [], []⟩ = (st, Except.ok ()) ∧
      st.fs.stat ["Out.saver", "Contents", "Resources", "payload.mp4"] =
        some (Entry.file [1, 2, 3]) := by
  refine ⟨by decide, by decide, ?_⟩
  obtain ⟨st, heq, hstat⟩ := c1_success_bundle_layout
    ⟨true, false, some ["tmp", "w"], CompilerRes.ok (some [9, 9]), XcodeRes.fail, true⟩
    ["in.mp4"] ["Out.saver"] ["tmp", "w"] "My Video"
    (FS.mk [(["in.mp4"], Entry.file [1, 2, 3])]) [1, 2, 3] [9, 9]
    rfl rfl (by decide) (by decide) (by decide) (by decide) (by decide) (by decide) (by decide)
  refine ⟨st, heq, ?_⟩
  have h := hstat ["Contents", "Resources", "payload.mp4"]
  simp only [List.cons_append, List.nil_append] at h
  rw [h]
  decide

/-- C2 (corrected): in the direct-compiler strategy, a successful run invokes
the compiler exactly once, with the fixed, hard-coded argument list — FOUR
named system frameworks (ScreenSaver, AVFoundation, AVKit, Cocoa; the claim
says three, which `c2_swiftc_invocation_counterexample` refutes),
emit-shared-library mode, the fixed module name, an output path equal to the
bundle's binary-holder directory plus the fixed binary filename, and the
emitted source file — with the scratch workspace as the working directory. -/
theorem c2_swiftc_invocation (env : Env) (inPath outP t : Path) (name : String)
    (fs₀ : FS) (inB bin : Bytes)
    (htmp : env.tempDir = some t)
    (hres : env.swiftcRes = CompilerRes.ok (some bin))
    (hin : fs₀.stat inPath = some (Entry.file inB))
    (hft : freshUnder fs₀ t = true)
    (hnt : noFileAlong fs₀ t = true)
    (hfo : freshUnder fs₀ outP = true)
    (hno : noFileAlong fs₀ outP = true)
    (hto : t.isPrefixOf outP = false)
    (hot : outP.isPrefixOf t = false) :
    ∃ st : St,
      buildMacSaverSwift env inPath outP name ⟨fs₀, [], []⟩ = (st, Except.ok ()) ∧
      st.trace = [⟨t, "swiftc",
        ["-framework", "ScreenSaver", "-framework", "AVFoundation", "-framework", "AVKit",
         "-framework", "Cocoa", "-emit-library", "-module-name", "VideoSaver", "-o",
         pathToString ((t ++ [sanitizeName name ++ ".saver"]) ++
           ["Contents", "MacOS", "VideoSaver"]),
         "VideoSaver.swift"]⟩] := by
  obtain ⟨fsF, heq, _⟩ :=
    buildMacSaverSwift_ok env inPath outP t name fs₀ inB bin htmp hres hin hft hnt hfo hno hto hot
  exact ⟨_, heq, rfl⟩

theorem c2_swiftc_invocation_witness :
    (noFileAlong (FS.mk [(["in.mp4"], Entry.file [1, 2, 3])]) ["tmp", "w"] = true) ∧
    ∃ st : St,
      buildMacSaverSwift ⟨true, false, some ["tmp", "w"], CompilerRes.ok (some [9, 9]),
          XcodeRes.fail, true⟩ ["in.mp4"] ["Out.saver"] "My Video"
          ⟨FS.mk [(["in.mp4"], Entry.file [1, 2, 3])], [], []⟩ = (st, Except.ok ()) ∧
      st.trace = [⟨["tmp", "w"], "swiftc",
        ["-framework", "ScreenSaver", "-framework", "AVFoundation", "-framework", "AVKit",
         "-framework", "Cocoa", "-emit-library", "-module-name", "VideoSaver", "-o",
         "tmp/w/My Video.saver/Contents/MacOS/VideoSaver", "VideoSaver.swift"]⟩] := by
  refine ⟨by decide, ?_⟩
  obtain ⟨st, heq, htr⟩ := c2_swiftc_invocation
    ⟨true, false, some ["tmp", "w"], CompilerRes.ok (some [9, 9]), XcodeRes.fail, true⟩
    ["in.mp4"] ["Out.saver"] ["tmp", "w"] "My Video"
    (FS.mk [(["in.mp4"], Entry.file [1, 2, 3])]) [1, 2, 3] [9, 9]
    rfl rfl (by decide) (by decide) (by decide) (by decide) (by decide) (by decide) (by decide)
  refine ⟨st, heq, ?_⟩
  rw [htr]
  rfl

/-- C2 counterexample: the hard-coded compiler argument list names four system
frameworks, not three as the claim states — the `"-framework"` flag occurs
four times, and `"Cocoa"` is passed in addition to the three the spec names. -/
theorem c2_swiftc_invocation_counterexample :
    (swiftcArgs "out").count "-framework" = 4 ∧
    ¬ (swiftcArgs "out").count "-framework" = 3 ∧
    "ScreenSaver" ∈ swiftcArgs "out" ∧ "AVFoundation" ∈ swiftcArgs "out" ∧
    "AVKit" ∈ swiftcArgs "out" ∧ "Cocoa" ∈ swiftcArgs "out" := by
  decide

/-- C8: a failure of the final permission fix-up (the chmod of the promoted
binary) is the single non-fatal error of the pipeline.  (1) The chmod
outcome never influences the result the pipeline returns, for every
environment and state (only the warning list can differ); (2) on a
successful direct-compiler run with a failing chmod the warning is
recorded; (3)–(4) every other error is terminal: in either strategy a run
that returns success must have succeeded at workspace creation, at every
step of the staging stage, at the external tool, at the output-existence
check and at the promotion copy — no error can be swallowed; (5) with no
toolchain the pipeline always fails. -/
theorem c8_chmod_only_nonfatal (env : Env) (inPath outP : Path) (name : String) (st : St) :
    (∀ b : Bool,
      (buildMacSaver { env with chmodOk := b } inPath outP name st).2 =
        (buildMacSaver env inPath outP name st).2) ∧
    (env.swiftcAvailable = true → env.chmodOk = false →
      (buildMacSaver env inPath outP name st).2 = Except.ok () →
      chmodWarnMsg ∈ (buildMacSaver env inPath outP name st).1.warnings) ∧
    (env.swiftcAvailable = true →
      (buildMacSaver env inPath outP name st).2 = Except.ok () →
      ∃ (t : Path) (fs4 : FS) (out : Option Bytes) (fs5 : FS) (e : Entry) (fs6 : FS),
        env.tempDir = some t ∧
        swiftStageA inPath t (sanitizeName name) (st.fs.writeSet t Entry.dir) = (fs4, none) ∧
        env.swiftcRes = CompilerRes.ok out ∧
        fs5 = (match out with
          | some bin => fs4.writeSet
              ((t ++ [sanitizeName name ++ ".saver"]) ++ ["Contents", "MacOS", "VideoSaver"])
              (Entry.file bin)
          | none => fs4) ∧
        fs5.stat ((t ++ [sanitizeName name ++ ".saver"]) ++ ["Contents", "MacOS", "VideoSaver"]) =
          some e ∧
        fs5.copyTree (t ++ [sanitizeName name ++ ".saver"]) outP = Except.ok fs6) ∧
    (env.swiftcAvailable = false → env.xcodebuildAvailable = true →
      (buildMacSaver env inPath outP name st).2 = Except.ok () →
      ∃ (t : Path) (fs4 : FS) (art : Option (List (Path × Entry))) (fs5 : FS) (e : Entry)
        (fs6 : FS),
        env.tempDir = some t ∧
        xcodeStageA inPath t (sanitizeName name) (st.fs.writeSet t Entry.dir) = (fs4, none) ∧
        env.xcodeRes = XcodeRes.ok art ∧
        fs5 = (match art with
          | some tree => tree.foldl (fun (acc : FS) (pe : Path × Entry) =>
              acc.writeSet ((t ++ ["build", "Release", sanitizeName name ++ ".saver"]) ++ pe.1)
                pe.2) fs4
          | none => fs4) ∧
        fs5.stat (t ++ ["build", "Release", sanitizeName name ++ ".saver"]) = some e ∧
        fs5.copyTree (t ++ ["build", "Release", sanitizeName name ++ ".saver"]) outP =
          Except.ok fs6) ∧
    (env.swiftcAvailable = false → env.xcodebuildAvailable = false →
      (buildMacSaver env inPath outP name st).2 =
        Except.error (Err.noToolchain noToolchainHint)) := by
  obtain ⟨sa, xa, td, sr, xr, co⟩ := env
  refine ⟨?_, ?_, ?_, ?_, ?_⟩
  · -- the chmod outcome never affects the returned result
    intro b
    cases sa with
    | false =>
      cases xa with
      | false => rfl
      | true =>
        have h : buildMacSaverXcode (Env.mk false true td sr xr b) inPath outP name st =
            buildMacSaverXcode (Env.mk false true td sr xr co) inPath outP name st := by
          simp only [buildMacSaverXcode]
        show (buildMacSaverXcode (Env.mk false true td sr xr b) inPath outP name st).2 =
          (buildMacSaverXcode (Env.mk false true td sr xr co) inPath outP name st).2
        rw [h]
    | true =>
      show (buildMacSaverSwift (Env.mk true xa td sr xr b) inPath outP name st).2 =
        (buildMacSaverSwift (Env.mk true xa td sr xr co) inPath outP name st).2
      cases td with
      | none => rfl
      | some t =>
        rcases hA : swiftStageA inPath t (sanitizeName name) (st.fs.writeSet t Entry.dir)
          with ⟨fs4, oe⟩
        cases oe with
        | some e => simp only [buildMacSaverSwift, hA]
        | none =>
          cases sr with
          | fail => simp only [buildMacSaverSwift, hA]
          | ok out =>
            cases out with
            | none =>
              cases hS : fs4.stat ((t ++ [sanitizeName name ++ ".saver"]) ++
                  ["Contents", "MacOS", "VideoSaver"]) with
              | none => simp only [buildMacSaverSwift, hA, hS]
              | some e2 =>
                cases hC : fs4.copyTree (t ++ [sanitizeName name ++ ".saver"]) outP with
                | error e3 => simp only [buildMacSaverSwift, hA, hS, hC]
                | ok fs6 =>
                  simp only [buildMacSaverSwift, hA, hS, hC]
                  cases b <;> cases co <;> rfl
            | some bin =>
              cases hS : (fs4.writeSet ((t ++ [sanitizeName name ++ ".saver"]) ++
                  ["Contents", "MacOS", "VideoSaver"]) (Entry.file bin)).stat
                  ((t ++ [sanitizeName name ++ ".saver"]) ++
                    ["Contents", "MacOS", "VideoSaver"]) with
              | none => simp only [buildMacSaverSwift, hA, hS]
              | some e2 =>
                cases hC : (fs4.writeSet ((t ++ [sanitizeName name ++ ".saver"]) ++
                    ["Contents", "MacOS", "VideoSaver"]) (Entry.file bin)).copyTree
                    (t ++ [sanitizeName name ++ ".saver"]) outP with
                | error e3 => simp only [buildMacSaverSwift, hA, hS, hC]
                | ok fs6 =>
                  simp only [buildMacSaverSwift, hA, hS, hC]
                  cases b <;> cases co <;> rfl
  · -- a failing chmod on a successful direct-compiler run leaves a warning
    intro hsa hco hOk
    cases sa with
    | false => exact Bool.noConfusion hsa
    | true =>
      cases co with
      | true => exact Bool.noConfusion hco
      | false =>
        have hOk2 : (buildMacSaverSwift (Env.mk true xa td sr xr false)
            inPath outP name st).2 = Except.ok () := hOk
        show chmodWarnMsg ∈
          (buildMacSaverSwift (Env.mk true xa td sr xr false) inPath outP name st).1.warnings
        cases td with
        | none => exact Except.noConfusion hOk2
        | some t =>
          rcases hA : swiftStageA inPath t (sanitizeName name) (st.fs.writeSet t Entry.dir)
            with ⟨fs4, oe⟩
          cases oe with
          | some e =>
            simp only [buildMacSaverSwift, hA] at hOk2
            exact Except.noConfusion hOk2
          | none =>
            cases sr with
            | fail =>
              simp only [buildMacSaverSwift, hA] at hOk2
              exact Except.noConfusion hOk2
            | ok out =>
              cases out with
              | none =>
                cases hS : fs4.stat ((t ++ [sanitizeName name ++ ".saver"]) ++
                    ["Contents", "MacOS", "VideoSaver"]) with
                | none =>
                  simp only [buildMacSaverSwift, hA, hS] at hOk2
                  exact Except.noConfusion hOk2
                | some e2 =>
                  cases hC : fs4.copyTree (t ++ [sanitizeName name ++ ".saver"]) outP with
                  | error e3 =>
                    simp only [buildMacSaverSwift, hA, hS, hC] at hOk2
                    exact Except.noConfusion hOk2
                  | ok fs6 =>
                    simp only [buildMacSaverSwift, hA, hS, hC]
                    simp
              | some bin =>
                cases hS : (fs4.writeSet ((t ++ [sanitizeName name ++ ".saver"]) ++
                    ["Contents", "MacOS", "VideoSaver"]) (Entry.file bin)).stat
                    ((t ++ [sanitizeName name ++ ".saver"]) ++
                      ["Contents", "MacOS", "VideoSaver"]) with
                | none =>
                  simp only [buildMacSaverSwift, hA, hS] at hOk2
                  exact Except.noConfusion hOk2
                | some e2 =>
                  cases hC : (fs4.writeSet ((t ++ [sanitizeName name ++ ".saver"]) ++
                      ["Contents", "MacOS", "VideoSaver"]) (Entry.file bin)).copyTree
                      (t ++ [sanitizeName name ++ ".saver"]) outP with
                  | error e3 =>
                    simp only [buildMacSaverSwift, hA, hS, hC] at hOk2
                    exact Except.noConfusion hOk2
                  | ok fs6 =>
                    simp only [buildMacSaverSwift, hA, hS, hC]
                    simp
  · -- direct-compiler strategy: success implies every step succeeded
    intro hsa hOk
    cases sa with
    | false => exact Bool.noConfusion hsa
    | true =>
      have hOk2 : (buildMacSaverSwift (Env.mk true xa td sr xr co)
          inPath outP name st).2 = Except.ok () := hOk
      cases td with
      | none => exact Except.noConfusion hOk2
      | some t =>
        rcases hA : swiftStageA inPath t (sanitizeName name) (st.fs.writeSet t Entry.dir)
          with ⟨fs4, oe⟩
        cases oe with
        | some e =>
          simp only [buildMacSaverSwift, hA] at hOk2
          exact Except.noConfusion hOk2
        | none =>
          cases sr with
          | fail =>
            simp only [buildMacSaverSwift, hA] at hOk2
            exact Except.noConfusion hOk2
          | ok out =>
            cases out with
            | none =>
              cases hS : fs4.stat ((t ++ [sanitizeName name ++ ".saver"]) ++
                  ["Contents", "MacOS", "VideoSaver"]) with
              | none =>
                simp only [buildMacSaverSwift, hA, hS] at hOk2
                exact Except.noConfusion hOk2
              | some e2 =>
                cases hC : fs4.copyTree (t ++ [sanitizeName name ++ ".saver"]) outP with
                | error e3 =>
                  simp only [buildMacSaverSwift, hA, hS, hC] at hOk2
                  exact Except.noConfusion hOk2
                | ok fs6 => exact ⟨t, fs4, none, fs4, e2, fs6, rfl, hA, rfl, rfl, hS, hC⟩
            | some bin =>
              cases hS : (fs4.writeSet ((t ++ [sanitizeName name ++ ".saver"]) ++
                  ["Contents", "MacOS", "VideoSaver"]) (Entry.file bin)).stat
                  ((t ++ [sanitizeName name ++ ".saver"]) ++
                    ["Contents", "MacOS", "VideoSaver"]) with
              | none =>
                simp only [buildMacSaverSwift, hA, hS] at hOk2
                exact Except.noConfusion hOk2
              | some e2 =>
                cases hC : (fs4.writeSet ((t ++ [sanitizeName name ++ ".saver"]) ++
                    ["Contents", "MacOS", "VideoSaver"]) (Entry.file bin)).copyTree
                    (t ++ [sanitizeName name ++ ".saver"]) outP with
                | error e3 =>
                  simp only [buildMacSaverSwift, hA, hS, hC] at hOk2
                  exact Except.noConfusion hOk2
                | ok fs6 =>
                  exact ⟨t, fs4, some bin,
                    fs4.writeSet ((t ++ [sanitizeName name ++ ".saver"]) ++
                      ["Contents", "MacOS", "VideoSaver"]) (Entry.file bin),
                    e2, fs6, rfl, hA, rfl, rfl, hS, hC⟩
  · -- project-based strategy: success implies every step succeeded
    intro hsa hxa hOk
    cases sa with
    | true => exact Bool.noConfusion hsa
    | false =>
      cases xa with
      | false => exact Bool.noConfusion hxa
      | true =>
        have hOk2 : (buildMacSaverXcode (Env.mk false true td sr xr co)
            inPath outP name st).2 = Except.ok () := hOk
        cases td with
        | none => exact Except.noConfusion hOk2
        | some t =>
          rcases hB : xcodeStageA inPath t (sanitizeName name) (st.fs.writeSet t Entry.dir)
            with ⟨fs4, oe⟩
          cases oe with
          | some e =>
            simp only [buildMacSaverXcode, hB] at hOk2
            exact Except.noConfusion hOk2
          | none =>
            cases xr with
            | fail =>
              simp only [buildMacSaverXcode, hB] at hOk2
              exact Except.noConfusion hOk2
            | ok art =>
              cases art with
              | none =>
                cases hS : fs4.stat
                    (t ++ ["build", "Release", sanitizeName name ++ ".saver"]) with
                | none =>
                  simp only [buildMacSaverXcode, hB, hS] at hOk2
                  exact Except.noConfusion hOk2
                | some e2 =>
                  cases hC : fs4.copyTree
                      (t ++ ["build", "Release", sanitizeName name ++ ".saver"]) outP with
                  | error e3 =>
                    simp only [buildMacSaverXcode, hB, hS, hC] at hOk2
                    exact Except.noConfusion hOk2
                  | ok fs6 => exact ⟨t, fs4, none, fs4, e2, fs6, rfl, hB, rfl, rfl, hS, hC⟩
              | some tree =>
                cases hS : (tree.foldl (fun (acc : FS) (pe : Path × Entry) =>
                    acc.writeSet ((t ++ ["build", "Release", sanitizeName name ++ ".saver"]) ++
                      pe.1) pe.2) fs4).stat
                    (t ++ ["build", "Release", sanitizeName name ++ ".saver"]) with
                | none =>
                  simp only [buildMacSaverXcode, hB, hS] at hOk2
                  exact Except.noConfusion hOk2
                | some e2 =>
                  cases hC : (tree.foldl (fun (acc : FS) (pe : Path × Entry) =>
                      acc.writeSet ((t ++ ["build", "Release", sanitizeName name ++ ".saver"]) ++
                        pe.1) pe.2) fs4).copyTree
                      (t ++ ["build", "Release", sanitizeName name ++ ".saver"]) outP with
                  | error e3 =>
                    simp only [buildMacSaverXcode, hB, hS, hC] at hOk2
                    exact Except.noConfusion hOk2
                  | ok fs6 =>
                    exact ⟨t, fs4, some tree,
                      tree.foldl (fun (acc : FS) (pe : Path × Entry) =>
                        acc.writeSet ((t ++ ["build", "Release",
                          sanitizeName name ++ ".saver"]) ++ pe.1) pe.2) fs4,
                      e2, fs6, rfl, hB, rfl, rfl, hS, hC⟩
  · -- with no toolchain the pipeline always fails
    intro hsa hxa
    cases sa with
    | true => exact Bool.noConfusion hsa
    | false =>
      cases xa with
      | true => exact Bool.noConfusion hxa
      | false => rfl

theorem c8_chmod_only_nonfatal_witness :
    ((buildMacSaver ⟨true, false, some ["tmp", "w"], CompilerRes.ok (some [9, 9]),
        XcodeRes.fail, false⟩ ["in.mp4"] ["Out.saver"] "My Video"
        ⟨FS.mk [(["in.mp4"], Entry.file [1, 2, 3])], [], []⟩).2 =
      (buildMacSaver ⟨true, false, some ["tmp", "w"], CompilerRes.ok (some [9, 9]),
        XcodeRes.fail, true⟩ ["in.mp4"] ["Out.saver"] "My Video"
        ⟨FS.mk [(["in.mp4"], Entry.file [1, 2, 3])], [], []⟩).2) ∧
    ((buildMacSaver ⟨true, false, some ["tmp", "w"], CompilerRes.ok (some [9, 9]),
        XcodeRes.fail, false⟩ ["in.mp4"] ["Out.saver"] "My Video"
        ⟨FS.mk [(["in.mp4"], Entry.file [1, 2, 3])], [], []⟩).2 = Except.ok ()) ∧
    chmodWarnMsg ∈ (buildMacSaver ⟨true, false, some ["tmp", "w"],
        CompilerRes.ok (some [9, 9]), XcodeRes.fail, false⟩ ["in.mp4"] ["Out.saver"]
        "My Video" ⟨FS.mk [(["in.mp4"], Entry.file [1, 2, 3])], [], []⟩).1.warnings := by
  have hOk : (buildMacSaver ⟨true, false, some ["tmp", "w"], CompilerRes.ok (some [9, 9]),
      XcodeRes.fail, false⟩ ["in.mp4"] ["Out.saver"] "My Video"
      ⟨FS.mk [(["in.mp4"], Entry.file [1, 2, 3])], [], []⟩).2 = Except.ok () := by
    obtain ⟨fsF, heq, _⟩ := buildMacSaverSwift_ok
      ⟨true, false, some ["tmp", "w"], CompilerRes.ok (some [9, 9]), XcodeRes.fail, false⟩
      ["in.mp4"] ["Out.saver"] ["tmp", "w"] "My Video"
      (FS.mk [(["in.mp4"], Entry.file [1, 2, 3])]) [1, 2, 3] [9, 9]
      rfl rfl (by decide) (by decide) (by decide) (by decide) (by decide) (by decide) (by decide)
    show (buildMacSaverSwift ⟨true, false, some ["tmp", "w"], CompilerRes.ok (some [9, 9]),
      XcodeRes.fail, false⟩ ["in.mp4"] ["Out.saver"] "My Video"
      ⟨FS.mk [(["in.mp4"], Entry.file [1, 2, 3])], [], []⟩).2 = Except.ok ()
    rw [heq]
  refine ⟨?_, hOk, ?_⟩
  · exact (c8_chmod_only_nonfatal
      ⟨true, false, some ["tmp", "w"], CompilerRes.ok (some [9, 9]), XcodeRes.fail, true⟩
      ["in.mp4"] ["Out.saver"] "My Video"
      ⟨FS.mk [(["in.mp4"], Entry.file [1, 2, 3])], [], []⟩).1 false
  · exact (c8_chmod_only_nonfatal
      ⟨true, false, some ["tmp", "w"], CompilerRes.ok (some [9, 9]), XcodeRes.fail, false⟩
      ["in.mp4"] ["Out.saver"] "My Video"
      ⟨FS.mk [(["in.mp4"], Entry.file [1, 2, 3])], [], []⟩).2.1 rfl rfl hOk

/-- C6: for every input media path that does not reference an existing regular
file, the pipeline — in either strategy — fails with the copy-stage error
`copyOpenFailed` naming that path before the external build tool is invoked
(the invocation trace stays empty), and the caller-specified output path is
not created. -/
theorem c6_missing_input_no_tool (envS envX : Env) (inPath outP t : Path) (name : String)
    (fs₀ : FS)
    (hS1 : envS.swiftcAvailable = true)
    (hS2 : envS.tempDir = some t)
    (hX1 : envX.swiftcAvailable = false)
    (hX2 : envX.xcodebuildAvailable = true)
    (hX3 : envX.tempDir = some t)
    (hfin : isFileO (fs₀.stat inPath) = false)
    (hti : t.isPrefixOf inPath = false)
    (hft : freshUnder fs₀ t = true)
    (hnt : noFileAlong fs₀ t = true)
    (hto : t.isPrefixOf outP = false)
    (hot : outP.isPrefixOf t = false)
    (houtP : fs₀.stat outP = none) :
    ((buildMacSaver envS inPath outP name ⟨fs₀, [], []⟩).2 =
        Except.error (Err.copyOpenFailed inPath) ∧
      (buildMacSaver envS inPath outP name ⟨fs₀, [], []⟩).1.trace = [] ∧
      (buildMacSaver envS inPath outP name ⟨fs₀, [], []⟩).1.fs.stat outP = none) ∧
    ((buildMacSaver envX inPath outP name ⟨fs₀, [], []⟩).2 =
        Except.error (Err.copyOpenFailed inPath) ∧
      (buildMacSaver envX inPath outP name ⟨fs₀, [], []⟩).1.trace = [] ∧
      (buildMacSaver envX inPath outP name ⟨fs₀, [], []⟩).1.fs.stat outP = none) := by
  have hfresh : ∀ r, fs₀.stat (t ++ r) = none := stat_none_of_fresh fs₀ t hft
  have hti2 : ¬ t <+: inPath := fun h => by
    rw [List.isPrefixOf_iff_prefix.mpr h] at hti
    exact Bool.noConfusion hti
  have hto2 : ¬ t <+: outP := fun h => by
    rw [List.isPrefixOf_iff_prefix.mpr h] at hto
    exact Bool.noConfusion hto
  have hot2 : ¬ outP <+: t := fun h => by
    rw [List.isPrefixOf_iff_prefix.mpr h] at hot
    exact Bool.noConfusion hot
  have hInT : ∀ r, t ++ r ≠ inPath := fun r he => hti2 (he ▸ List.prefix_append t r)
  have hOutT : ∀ r, t ++ r ≠ outP := fun r he => hto2 (he ▸ List.prefix_append t r)
  have hselS : buildMacSaver envS inPath outP name ⟨fs₀, [], []⟩ =
      buildMacSaverSwift envS inPath outP name ⟨fs₀, [], []⟩ := by
    simp [buildMacSaver, hS1]
  have hselX : buildMacSaver envX inPath outP name ⟨fs₀, [], []⟩ =
      buildMacSaverXcode envX inPath outP name ⟨fs₀, [], []⟩ := by
    simp [buildMacSaver, hX1, hX2]
  obtain ⟨dsp, fsS, hdsp, hseq, hSent, hstat4, hall4⟩ :=
    swiftScaffold_ok t (sanitizeName name) fs₀ hft hnt
  have hnotfile : isFileO (fsS.stat inPath) = false := by
    rw [hstat4]
    split_ifs <;> first | rfl | exact hfin
  have hcf : fsS.copyFile inPath
      ((((t ++ [sanitizeName name ++ ".saver"]) ++ ["Contents"]) ++ ["Resources"]) ++
        ["payload.mp4"]) = Except.error (Err.copyOpenFailed inPath) := by
    cases hs : fsS.stat inPath with
    | none => simp only [FS.copyFile, hs]
    | some e =>
      cases e with
      | dir => simp only [FS.copyFile, hs]
      | file b =>
        rw [hs] at hnotfile
        simp [isFileO] at hnotfile
  have hstA : swiftStageA inPath t (sanitizeName name) (fs₀.writeSet t Entry.dir) =
      (fsS, some (Err.copyOpenFailed inPath)) := by
    simp only [swiftStageA, hseq, hcf]
  have hswift : buildMacSaverSwift envS inPath outP name ⟨fs₀, [], []⟩ =
      ({ fs := fsS, trace := [], warnings := [] },
        Except.error (Err.copyOpenFailed inPath)) := by
    simp only [buildMacSaverSwift, hS2, hstA]
  have hstatO : fsS.stat outP = none := by
    rw [hstat4]
    rw [if_neg (fun he => hOutT [sanitizeName name ++ ".saver", "Contents", "Resources"]
      (by rw [← he]; simp))]
    rw [if_neg (fun he => hOutT [sanitizeName name ++ ".saver", "Contents", "MacOS"]
      (by rw [← he]; simp))]
    rw [if_neg (fun he => hOutT [sanitizeName name ++ ".saver", "Contents"]
      (by rw [← he]; simp))]
    rw [if_neg (fun he => hOutT [sanitizeName name ++ ".saver"] he)]
    rw [if_neg (fun hm => hot2 ((hdsp outP hm).1))]
    rw [if_neg (fun he => hOutT [] (by rw [List.append_nil]; exact he))]
    exact houtP
  obtain ⟨dsp2, fs3, hdsp2, hstage, hstat3, hallV⟩ :=
    xcodeScaffold_ok t (sanitizeName name) fs₀ hft hnt
  have hnf3 : isFileO (fs3.stat inPath) = false := by
    rw [hstat3]
    split_ifs with h1 h2 h3 h4 h5 h6 h7
    · exact absurd h1 (hInT _)
    · exact absurd h2 (hInT _)
    · rfl
    · exact absurd h4 (hInT _)
    · rfl
    · rfl
    · rfl
    · exact hfin
  have hcf3 : fs3.copyFile inPath (t ++ ["VideoSaver", "payload.mp4"]) =
      Except.error (Err.copyOpenFailed inPath) := by
    cases hs : fs3.stat inPath with
    | none => simp only [FS.copyFile, hs]
    | some e =>
      cases e with
      | dir => simp only [FS.copyFile, hs]
      | file b =>
        rw [hs] at hnf3
        simp [isFileO] at hnf3
  have hxcode : buildMacSaverXcode envX inPath outP name ⟨fs₀, [], []⟩ =
      ({ fs := fs3, trace := [], warnings := [] },
        Except.error (Err.copyOpenFailed inPath)) := by
    simp only [buildMacSaverXcode, hX3, hstage, hcf3]
  have hstatO3 : fs3.stat outP = none := by
    rw [hstat3]
    rw [if_neg (fun he => hOutT _ he)]
    rw [if_neg (fun he => hOutT _ he)]
    rw [if_neg (fun he => hOutT _ he)]
    rw [if_neg (fun he => hOutT _ he)]
    rw [if_neg (fun he => hOutT _ he)]
    rw [if_neg (fun hm => hot2 ((hdsp2 outP hm).1))]
    rw [if_neg (fun he => hOutT [] (by rw [List.append_nil]; exact he))]
    exact houtP
  refine ⟨⟨?_, ?_, ?_⟩, ⟨?_, ?_, ?_⟩⟩
  · rw [hselS, hswift]
  · rw [hselS, hswift]
  · rw [hselS, hswift]
    exact hstatO
  · rw [hselX, hxcode]
  · rw [hselX, hxcode]
  · rw [hselX, hxcode]
    exact hstatO3

theorem c6_missing_input_no_tool_witness :
    (isFileO ((FS.mk []).stat ["in.mp4"]) = false) ∧
    (freshUnder (FS.mk []) ["tmp", "w"] = true) ∧
    ((buildMacSaver ⟨true, false, some ["tmp", "w"], CompilerRes.fail, XcodeRes.fail, true⟩
        ["in.mp4"] ["Out.saver"] "My Video" ⟨⟨[]⟩, [], []⟩).2 =
      Except.error (Err.copyOpenFailed ["in.mp4"])) ∧
    ((buildMacSaver ⟨false, true, some ["tmp", "w"], CompilerRes.fail, XcodeRes.ok none, true⟩
        ["in.mp4"] ["Out.saver"] "My Video" ⟨⟨[]⟩, [], []⟩).2 =
      Except.error (Err.copyOpenFailed ["in.mp4"])) := by
  refine ⟨by decide, by decide, ?_, ?_⟩
  · exact ((c6_missing_input_no_tool
      ⟨true, false, some ["tmp", "w"], CompilerRes.fail, XcodeRes.fail, true⟩
      ⟨false, true, some ["tmp", "w"], CompilerRes.fail, XcodeRes.ok none, true⟩
      ["in.mp4"] ["Out.saver"] ["tmp", "w"] "My Video" ⟨[]⟩
      rfl rfl rfl rfl rfl (by decide) (by decide) (by decide) (by decide) (by decide)
      (by decide) (by decide)).1).1
  · exact ((c6_missing_input_no_tool
      ⟨true, false, some ["tmp", "w"], CompilerRes.fail, XcodeRes.fail, true⟩
      ⟨false, true, some ["tmp", "w"], CompilerRes.fail, XcodeRes.ok none, true⟩
      ["in.mp4"] ["Out.saver"] ["tmp", "w"] "My Video" ⟨[]⟩
      rfl rfl rfl rfl rfl (by decide) (by decide) (by decide) (by decide) (by decide)
      (by decide) (by decide)).2).1

/-- C7: in either strategy, when the external build tool reports success but
the expected binary/artifact is absent, the pipeline fails with an
output-missing error naming the expected path — the tool's exit status is not
trusted alone.  The trace shows the tool was invoked (with its fixed argument
list) before the check. -/
theorem c7_output_missing_distrust (envS envX : Env) (inPath outP t : Path) (name : String)
    (fs₀ : FS) (inB : Bytes)
    (hS1 : envS.swiftcAvailable = true)
    (hS2 : envS.tempDir = some t)
    (hS3 : envS.swiftcRes = CompilerRes.ok none)
    (hX1 : envX.swiftcAvailable = false)
    (hX2 : envX.xcodebuildAvailable = true)
    (hX3 : envX.tempDir = some t)
    (hX4 : envX.xcodeRes = XcodeRes.ok none)
    (hin : fs₀.stat inPath = some (Entry.file inB))
    (hft : freshUnder fs₀ t = true)
    (hnt : noFileAlong fs₀ t = true) :
    ((buildMacSaver envS inPath outP name ⟨fs₀, [], []⟩).2 =
        Except.error (Err.outputMissing
          ((t ++ [sanitizeName name ++ ".saver"]) ++ ["Contents", "MacOS", "VideoSaver"])) ∧
      (buildMacSaver envS inPath outP name ⟨fs₀, [], []⟩).1.trace =
        [⟨t, "swiftc", swiftcArgs (pathToString
          ((t ++ [sanitizeName name ++ ".saver"]) ++ ["Contents", "MacOS", "VideoSaver"]))⟩]) ∧
    ((buildMacSaver envX inPath outP name ⟨fs₀, [], []⟩).2 =
        Except.error (Err.outputMissing
          (t ++ ["build", "Release", sanitizeName name ++ ".saver"])) ∧
      (buildMacSaver envX inPath outP name ⟨fs₀, [], []⟩).1.trace =
        [⟨t, "xcodebuild", xcodebuildArgs⟩]) := by
  have hfresh : ∀ r, fs₀.stat (t ++ r) = none := stat_none_of_fresh fs₀ t hft
  have hInT : ∀ r, t ++ r ≠ inPath := by
    intro r he
    have hf := hfresh r
    rw [he, hin] at hf
    exact Option.noConfusion hf
  have hselS : buildMacSaver envS inPath outP name ⟨fs₀, [], []⟩ =
      buildMacSaverSwift envS inPath outP name ⟨fs₀, [], []⟩ := by
    simp [buildMacSaver, hS1]
  have hselX : buildMacSaver envX inPath outP name ⟨fs₀, [], []⟩ =
      buildMacSaverXcode envX inPath outP name ⟨fs₀, [], []⟩ := by
    simp [buildMacSaver, hX1, hX2]
  obtain ⟨dsp, hdsp, hstage⟩ :=
    swiftStageA_ok inPath t (sanitizeName name) fs₀ inB hin hft hnt
  have hexn := stageA_exec_missing t (sanitizeName name) fs₀ inB dsp hdsp hft
  have hsrun : buildMacSaverSwift envS inPath outP name ⟨fs₀, [], []⟩ =
      ({ fs := FS.mk (stageAEntries t (sanitizeName name) inB ++
           (dsp.map (fun q => (q, Entry.dir)) ++ (t, Entry.dir) :: fs₀.entries)),
         trace := [⟨t, "swiftc", swiftcArgs (pathToString
           ((t ++ [sanitizeName name ++ ".saver"]) ++ ["Contents", "MacOS", "VideoSaver"]))⟩],
         warnings := [] },
       Except.error (Err.outputMissing
         ((t ++ [sanitizeName name ++ ".saver"]) ++ ["Contents", "MacOS", "VideoSaver"]))) := by
    simp only [buildMacSaverSwift, hS2, hstage, hS3, hexn, List.nil_append]
  obtain ⟨dsp2, fs3, hdsp2, hstage2, hstat3, hallV⟩ :=
    xcodeScaffold_ok t (sanitizeName name) fs₀ hft hnt
  have hsrc3 : fs3.stat inPath = some (Entry.file inB) := by
    rw [hstat3]
    rw [if_neg (fun he => hInT _ he)]
    rw [if_neg (fun he => hInT _ he)]
    rw [if_neg (fun he => hInT _ he)]
    rw [if_neg (fun he => hInT _ he)]
    rw [if_neg (fun he => hInT _ he)]
    rw [if_neg (fun hm => by
      have h2 := (hdsp2 inPath hm).2.2
      rw [hin] at h2
      exact Option.noConfusion h2)]
    rw [if_neg (fun he => hInT [] (by rw [List.append_nil]; exact he))]
    exact hin
  have hdlp : (t ++ ["VideoSaver", "payload.mp4"]).dropLast = t ++ ["VideoSaver"] := by
    rw [(by simp : t ++ ["VideoSaver", "payload.mp4"] =
      (t ++ ["VideoSaver"]) ++ ["payload.mp4"]), List.dropLast_concat]
  have hpnone : fs3.stat (t ++ ["VideoSaver", "payload.mp4"]) = none := by
    rw [hstat3]
    rw [if_neg (fun he => absurd ((List.append_right_inj _).mp he) (by decide))]
    rw [if_neg (fun he => absurd ((List.append_right_inj _).mp he) (by decide))]
    rw [if_neg (ne_of_length_ne
      (by simp only [List.length_append, List.length_cons, List.length_nil]; omega))]
    rw [if_neg (fun he => absurd ((List.append_right_inj _).mp he) (by decide))]
    rw [if_neg (ne_of_length_ne
      (by simp only [List.length_append, List.length_cons, List.length_nil]; omega))]
    rw [if_neg (fun hm => by
      have h3 := (hdsp2 _ hm).1.length_le
      simp only [List.length_append, List.length_cons, List.length_nil] at h3
      omega)]
    rw [if_neg (ne_of_length_ne
      (by simp only [List.length_append, List.length_cons, List.length_nil]; omega))]
    exact hfresh _
  have hcf := copyFile_existing fs3 inPath (t ++ ["VideoSaver", "payload.mp4"]) inB
    (by simp) hsrc3
    (fun q hq => hallV q (by rwa [hdlp] at hq))
    (by rw [hpnone]; simp)
  have hbuiltn : (fs3.writeSet (t ++ ["VideoSaver", "payload.mp4"]) (Entry.file inB)).stat
      (t ++ ["build", "Release", sanitizeName name ++ ".saver"]) = none := by
    rw [stat_writeSet]
    rw [if_neg (ne_of_length_ne
      (by simp only [List.length_append, List.length_cons, List.length_nil]; omega))]
    rw [hstat3]
    rw [if_neg (ne_of_length_ne
      (by simp only [List.length_append, List.length_cons, List.length_nil]; omega))]
    rw [if_neg (ne_of_length_ne
      (by simp only [List.length_append, List.length_cons, List.length_nil]; omega))]
    rw [if_neg (ne_of_length_ne
      (by simp only [List.length_append, List.length_cons, List.length_nil]; omega))]
    rw [if_neg (ne_of_length_ne
      (by simp only [List.length_append, List.length_cons, List.length_nil]; omega))]
    rw [if_neg (ne_of_length_ne
      (by simp only [List.length_append, List.length_cons, List.length_nil]; omega))]
    rw [if_neg (fun hm => by
      have h3 := (hdsp2 _ hm).1.length_le
      simp only [List.length_append, List.length_cons, List.length_nil] at h3
      omega)]
    rw [if_neg (ne_of_length_ne
      (by simp only [List.length_append, List.length_cons, List.length_nil]; omega))]
    exact hfresh _
  have hxrun : buildMacSaverXcode envX inPath outP name ⟨fs₀, [], []⟩ =
      ({ fs := fs3.writeSet (t ++ ["VideoSaver", "payload.mp4"]) (Entry.file inB),
         trace := [⟨t, "xcodebuild", xcodebuildArgs⟩], warnings := [] },
       Except.error (Err.outputMissing
         (t ++ ["build", "Release", sanitizeName name ++ ".saver"]))) := by
    simp only [buildMacSaverXcode, hX3, hstage2, hcf, hX4, hbuiltn, List.nil_append]
  refine ⟨⟨?_, ?_⟩, ⟨?_, ?_⟩⟩
  · rw [hselS, hsrun]
  · rw [hselS, hsrun]
  · rw [hselX, hxrun]
  · rw [hselX, hxrun]

theorem c7_output_missing_distrust_witness :
    ((FS.mk [(["in.mp4"], Entry.file [1, 2, 3])]).stat ["in.mp4"] =
      some (Entry.file [1, 2, 3])) ∧
    ((buildMacSaver ⟨true, false, some ["tmp", "w"], CompilerRes.ok none, XcodeRes.fail, true⟩
        ["in.mp4"] ["Out.saver"] "My Video"
        ⟨FS.mk [(["in.mp4"], Entry.file [1, 2, 3])], [], []⟩).2 =
      Except.error (Err.outputMissing
        ((["tmp", "w"] ++ [sanitizeName "My Video" ++ ".saver"]) ++
          ["Contents", "MacOS", "VideoSaver"]))) ∧
    ((buildMacSaver ⟨false, true, some ["tmp", "w"], CompilerRes.fail, XcodeRes.ok none, true⟩
        ["in.mp4"] ["Out.saver"] "My Video"
        ⟨FS.mk [(["in.mp4"], Entry.file [1, 2, 3])], [], []⟩).2 =
      Except.error (Err.outputMissing
        (["tmp", "w"] ++ ["build", "Release", sanitizeName "My Video" ++ ".saver"]))) := by
  refine ⟨by decide, ?_, ?_⟩
  · exact ((c7_output_missing_distrust
      ⟨true, false, some ["tmp", "w"], CompilerRes.ok none, XcodeRes.fail, true⟩
      ⟨false, true, some ["tmp", "w"], CompilerRes.fail, XcodeRes.ok none, true⟩
      ["in.mp4"] ["Out.saver"] ["tmp", "w"] "My Video"
      (FS.mk [(["in.mp4"], Entry.file [1, 2, 3])]) [1, 2, 3]
      rfl rfl rfl rfl rfl rfl rfl (by decide) (by decide) (by decide)).1).1
  · exact ((c7_output_missing_distrust
      ⟨true, false, some ["tmp", "w"], CompilerRes.ok none, XcodeRes.fail, true⟩
      ⟨false, true, some ["tmp", "w"], CompilerRes.fail, XcodeRes.ok none, true⟩
      ["in.mp4"] ["Out.saver"] ["tmp", "w"] "My Video"
      (FS.mk [(["in.mp4"], Entry.file [1, 2, 3])]) [1, 2, 3]
      rfl rfl rfl rfl rfl rfl rfl (by decide) (by decide) (by decide)).2).1

end SaverGen
